import Mathlib

/-!
Verification development for the `topsyde_utils` WebSocket pub/sub hub
(`src/server/bun/websocket/{Channel,Client,Message,Websocket}.ts`).

The TypeScript code is shallowly embedded:
* JavaScript values that cross the wire are modelled by `JValue` (a JSON tree);
  JavaScript objects are ordered association lists (`JObj`), with
  `Object.assign` / property writes modelled by `setKey` / `assign`.
* `Map` objects are modelled by insertion-ordered association lists whose key
  sets behave like the `Map` key set (insertion checks `has` first, deletion
  filters).
* `new Date().toISOString()` is an explicit `now : String` parameter.
* Transport behaviour (Bun's `ServerWebSocket`) is modelled by per-client flags:
  `subscribeFails` (does `ws.subscribe` throw) and `sendError`
  (does `ws.send` throw, and with which error message).
* Thrown exceptions are `Except.error`; the carried value also keeps the state
  reached when the throw happened, since in JS the mutations persist.
`Date` fields (`createdAt`, `connectedAt`, …) are elided: no claim observes
them.
-/

/-- JSON-compatible JavaScript value (the subset the hub puts on the wire). -/
inductive JValue where
  | null
  | bool (b : Bool)
  | num (n : Int)
  | str (s : String)
  | arr (xs : List JValue)
  | obj (fields : List (String × JValue))
  deriving Repr

/-- A JavaScript object: insertion-ordered field list. -/
abbrev JObj := List (String × JValue)

namespace JValue

mutual

/-- Boolean-valued structural equality on `JValue`. -/
def beq : JValue → JValue → Bool
  | .null, .null => true
  | .bool a, .bool b => a == b
  | .num a, .num b => a == b
  | .str a, .str b => a == b
  | .arr xs, .arr ys => beqList xs ys
  | .obj fs, .obj gs => beqFields fs gs
  | _, _ => false

def beqList : List JValue → List JValue → Bool
  | [], [] => true
  | x :: xs, y :: ys => beq x y && beqList xs ys
  | _, _ => false

def beqFields : List (String × JValue) → List (String × JValue) → Bool
  | [], [] => true
  | (k, v) :: fs, (l, w) :: gs => k == l && beq v w && beqFields fs gs
  | _, _ => false

end

instance : BEq JValue := ⟨beq⟩

/-- JavaScript truthiness (`undefined` is modelled by `Option.none` upstream,
so only actual values appear here). -/
def truthy : JValue → Bool
  | .null => false
  | .bool b => b
  | .num n => n != 0
  | .str s => s != ""
  | .arr _ => true
  | .obj _ => true

end JValue

/-- `o.hasOwnProperty(k)` / key membership of a JS object. -/
def hasKey (o : JObj) (k : String) : Bool :=
  o.any (fun p => p.1 == k)

/-- Property read: `o[k]`, `none` when absent (JS `undefined`). -/
def getKey? (o : JObj) (k : String) : Option JValue :=
  (o.find? (fun p => p.1 == k)).map Prod.snd

/-- Property write `o[k] = v`: overwrites in place (keeping the key's
position) or appends a fresh key, exactly as JS objects do. -/
def setKey (o : JObj) (k : String) (v : JValue) : JObj :=
  if hasKey o k then o.map (fun p => if p.1 == k then (k, v) else p)
  else o ++ [(k, v)]

/-- Property delete `delete o[k]`. -/
def delKey (o : JObj) (k : String) : JObj :=
  o.filter (fun p => p.1 != k)

/-- `Object.assign(o, src)`: write every field of `src` onto `o`, in order. -/
def assign (o : JObj) (src : JObj) : JObj :=
  src.foldl (fun acc p => setKey acc p.1 p.2) o

/-- The field list obtained by spreading a value (`\x7b...v\x7d`): objects
contribute their fields, arrays and strings their indexed elements,
primitives nothing. -/
def spreadFields : JValue → JObj
  | .obj fs => fs
  | .arr xs => (xs.enum.map (fun p => (toString p.1, p.2)))
  | .str s => (s.toList.enum.map (fun p => (toString p.1, JValue.str (String.singleton p.2))))
  | _ => []

/-- Top-level key list of a value (empty for non-objects). -/
def topKeys : JValue → List String
  | .obj fs => fs.map Prod.fst
  | _ => []

/-- Escape the characters of a string for JSON output. -/
def jsonEscapeChars : List Char → String
  | [] => ""
  | c :: cs =>
    (if c = '\\' then "\\\\" else if c = '"' then "\\\"" else String.singleton c)
      ++ jsonEscapeChars cs

/-- Escape a string for JSON output (quote and backslash; the hub never puts
control characters in the fields the claims mention). -/
def jsonEscape (s : String) : String :=
  jsonEscapeChars s.data

def jstr (s : String) : String := "\"" ++ jsonEscape s ++ "\""

mutual

/-- `JSON.stringify` on the modelled values. -/
def JValue.stringify : JValue → String
  | .null => "null"
  | .bool true => "true"
  | .bool false => "false"
  | .num n => toString n
  | .str s => jstr s
  | .arr xs => "[" ++ stringifyList xs ++ "]"
  | .obj fs => "\x7b" ++ stringifyFields fs ++ "\x7d"

def JValue.stringifyList : List JValue → String
  | [] => ""
  | [x] => x.stringify
  | x :: xs => x.stringify ++ "," ++ stringifyList xs

def JValue.stringifyFields : List (String × JValue) → String
  | [] => ""
  | [(k, v)] => jstr k ++ ":" ++ v.stringify
  | (k, v) :: fs => jstr k ++ ":" ++ v.stringify ++ "," ++ stringifyFields fs

end

/-! ## Enumerations (`websocket.enums.ts`) -/

/-- `E_ClientState` (string enum in the source; the four connection states). -/
inductive E_ClientState where
  | CONNECTING
  | CONNECTED
  | DISCONNECTING
  | DISCONNECTED
  deriving Repr, DecidableEq

namespace E_WebsocketMessageType

def CLIENT_CONNECTED : String := "client.connected"
def CLIENT_JOIN_CHANNEL : String := "client.join.channel"
def CLIENT_LEAVE_CHANNEL : String := "client.leave.channel"
def ERROR : String := "error"

end E_WebsocketMessageType

/-! ## Message options (`websocket.types.ts`, `WebsocketMessageOptions`)

`BroadcastOptions = WebsocketMessageOptions & \x7b debug? \x7d`; the `debug`
flag is never read by `Channel.broadcast`, so one options type serves both. -/

/-- `includeMetadata?: boolean | string[]`. -/
inductive IncludeMetadata where
  | bool (b : Bool)
  | keys (ks : List String)
  deriving Repr

/-- `WebsocketMessageOptions`.  A field of `Option` type is `none` exactly when
the JS property is absent (`undefined`). -/
structure WebsocketMessageOptions where
  data : Option JValue := none
  client : Option JValue := none
  includeMetadata : Option IncludeMetadata := none
  excludeClients : Option (List String) := none
  channel : Option String := none
  includeTimestamp : Option Bool := none
  customFields : Option JObj := none
  transform : Option (JValue → JValue) := none
  priority : Option Int := none
  expiresAt : Option Int := none
  metadata : Option JValue := none

/-! ## `Message.ts` (static `Message` class) -/

namespace Message

/-- `Guards.IsObject` (the `Lib.IsObject` body is not in the sources;
modelled from its documented meaning "check if value is an object", which in
JS terms — `typeof v === "object"` — covers plain objects and arrays; `null`
is always excluded before this guard by a `&&` truthiness check). -/
def guardsIsObject : JValue → Bool
  | .obj _ => true
  | .arr _ => true
  | _ => false

/-- `Guards.IsArray`. -/
def guardsIsArray : JValue → Bool
  | .arr _ => true
  | _ => false

/-- `Guards.IsString(v, true)`: `v` is a string and not null/undefined. -/
def guardsIsStringNonNil : Option JValue → Bool
  | some (.str _) => true
  | _ => false

/-- `a || b` for the `channel` computation (`message.channel ||
options?.channel || "N/A"`); operands are strings or absent. -/
def jsOrStr : Option String → String → String
  | some s, dflt => if s == "" then dflt else s
  | none, dflt => dflt

/-- Content normalization (`Message.Create` lines 112-119): strings are
wrapped, objects shallow-copied (`\x7b...content\x7d`), anything else
becomes `\x7b\x7d`. -/
def contentNorm : Option JValue → JObj
  | some (.str s) => [("message", .str s)]
  | some (.obj fs) => fs
  | some (.arr xs) => spreadFields (.arr xs)
  | _ => []

/-- Apply `f` to the (always present here) `content` object of the envelope:
models in-place mutation of `output.content`. -/
def updContent (output : JObj) (f : JObj → JObj) : JObj :=
  setKey output "content"
    (match getKey? output "content" with
     | some (.obj fs) => .obj (f fs)
     | some v => v
     | none => .obj (f []))

/-- `options.client.name || "Unknown"`. -/
def clientName (c : JObj) : JValue :=
  match getKey? c "name" with
  | some v => if JValue.truthy v then v else .str "Unknown"
  | none => .str "Unknown"

/-- The first half of `Create`, shared by both the with-options and the
no-options paths: template clone, then `type`, `channel` and normalized
`content`. -/
def createBase (message : JObj) (optChannel : Option String) : JObj :=
  -- const output = Object.assign(\x7b\x7d, Message.MESSAGE_TEMPLATE);
  let output : JObj :=
    [("type", .str ""), ("content", .obj []), ("channel", .str ""), ("timestamp", .str "")]
  -- output.type = message.type;
  let output := setKey output "type" ((getKey? message "type").getD .null)
  -- output.channel = message.channel || options?.channel || "N/A";
  let msgChannel : Option String :=
    match getKey? message "channel" with
    | some (.str s) => some s
    | _ => none
  let output :=
    setKey output "channel" (.str (jsOrStr msgChannel (jsOrStr optChannel "N/A")))
  -- content normalization
  setKey output "content" (.obj (contentNorm (getKey? message "content")))

/-- `if (options.data !== undefined) \x7b ... \x7d`: object data merges into
`content`, anything else lands under `content.data`. -/
def applyData (d : Option JValue) (output : JObj) : JObj :=
  match d with
  | none => output
  | some (.obj fs) => updContent output (fun c => assign c fs)
  | some d => updContent output (fun c => setKey c "data" d)

/-- The client option: attach `\x7bid, name\x7d` when the option is a truthy
object with a string (non-nil) `id`; `name` defaults to `"Unknown"`. -/
def applyClient (c? : Option JValue) (output : JObj) : JObj :=
  match c? with
  | some c =>
    if JValue.truthy c && guardsIsObject c &&
        guardsIsStringNonNil (getKey? (spreadFields c) "id") then
      setKey output "client"
        (.obj [("id", (getKey? (spreadFields c) "id").getD .null),
               ("name", clientName (spreadFields c))])
    else output
  | none => output

/-- The metadata option: attach when a truthy non-array object. -/
def applyMetadataOpt (m? : Option JValue) (output : JObj) : JObj :=
  match m? with
  | some m =>
    if JValue.truthy m && guardsIsObject m && !guardsIsArray m then
      setKey output "metadata" m
    else output
  | none => output

/-- `includeTimestamp !== false` sets the timestamp, otherwise the template
timestamp field is deleted. -/
def applyTimestamp (now : String) (it : Option Bool) (output : JObj) : JObj :=
  if it != some false then setKey output "timestamp" (.str now)
  else delKey output "timestamp"

def applyPriority (p? : Option Int) (output : JObj) : JObj :=
  match p? with
  | some p => setKey output "priority" (.num p)
  | none => output

def applyExpiresAt (e? : Option Int) (output : JObj) : JObj :=
  match e? with
  | some e => setKey output "expiresAt" (.num e)
  | none => output

/-- `if (options.customFields) Object.assign(output, options.customFields)`
(an object is truthy, even `\x7b\x7d`). -/
def applyCustomFields (fs? : Option JObj) (output : JObj) : JObj :=
  match fs? with
  | some fs => assign output fs
  | none => output

/-- `Message.Create(message, options?)` (`Message.ts`, static version).
`now` stands for `new Date().toISOString()`.  The `message` argument is the
raw JS object handed to `Create`; only its `type`, `channel` and `content`
properties are read.  The option steps run in the source's fixed order;
`transform`, when present, replaces the envelope wholesale. -/
def Create (now : String) (message : JObj) (options : Option WebsocketMessageOptions) :
    JValue :=
  let output := createBase message (options.bind (·.channel))
  match options with
  | none => .obj (setKey output "timestamp" (.str now))
  | some o =>
    let output := applyData o.data output
    let output := applyClient o.client output
    let output := applyMetadataOpt o.metadata output
    let output := applyTimestamp now o.includeTimestamp output
    let output := applyPriority o.priority output
    let output := applyExpiresAt o.expiresAt output
    let output := applyCustomFields o.customFields output
    match o.transform with
    | some t => t (.obj output)
    | none => .obj output

/-- `Message.Serialize(message, transform?)` without a transform:
`JSON.stringify`. -/
def Serialize (message : JValue) : String :=
  message.stringify

end Message

/-! ## `Client.ts` -/

/-- `Client`: identity, connection state and channel bookkeeping.
`channels` and `subs` are the key sets of `_channels` (tracked channels) and
of the transport's subscription set (`ws.subscribe`).  `subscribeFails` and
`sendError` model the transport: whether `ws.subscribe` throws, and whether
`ws.send` throws (and with which error message). -/
structure Client where
  id : String
  name : String
  state : E_ClientState
  channels : List String
  subs : List String
  subscribeFails : Bool := false
  sendError : Option String := none
  deriving Repr, DecidableEq

namespace Client

/-- `new Client(entity)`: fresh client in state CONNECTING with no channels. -/
def mk' (id name : String) (subscribeFails : Bool) (sendError : Option String) : Client :=
  ⟨id, name, .CONNECTING, [], [], subscribeFails, sendError⟩

def whoami (c : Client) : JObj :=
  [("id", .str c.id), ("name", .str c.name)]

/-- `canReceiveMessages()`: state is CONNECTED or DISCONNECTING. -/
def canReceiveMessages (c : Client) : Bool :=
  c.state == .CONNECTED || c.state == .DISCONNECTING

def markConnected (c : Client) : Client := { c with state := .CONNECTED }

def markDisconnecting (c : Client) : Client := { c with state := .DISCONNECTING }

def markDisconnected (c : Client) : Client := { c with state := .DISCONNECTED }

/-- `client.subscribe(topic)` = `ws.subscribe` (topic set semantics). -/
def subscribe (c : Client) (channel : String) : Client :=
  if channel ∈ c.subs then c else { c with subs := c.subs ++ [channel] }

/-- `client.unsubscribe(topic)` = `ws.unsubscribe`. -/
def unsubscribe (c : Client) (channel : String) : Client :=
  { c with subs := c.subs.filter (· ≠ channel) }

/-- `trackChannel(channel)`: `channels.set(channel.getId(), channel)`. -/
def trackChannel (c : Client) (channelId : String) : Client :=
  if channelId ∈ c.channels then c else { c with channels := c.channels ++ [channelId] }

/-- `untrackChannel(channel)`: `channels.delete(channel.getId())`. -/
def untrackChannel (c : Client) (channelId : String) : Client :=
  { c with channels := c.channels.filter (· ≠ channelId) }

end Client

/-- `String.prototype.includes`. -/
def strIncludes (s sub : String) : Bool :=
  (s.splitOn sub).length ≥ 2

/-- Result of one `Client.send` call: the (possibly state-updated) client, the
frames actually written to the transport, and the number of `Lib.Warn` calls. -/
structure SendEffect where
  client : Client
  writes : List String
  warnings : Nat
  deriving Repr, DecidableEq

/-- `Client.send(message, options?)` (`Client.ts` lines 189-213).
* Gate: in a state other than CONNECTED/DISCONNECTING the call only warns.
* A string message is routed through `Message.Create`; a structured message
  is used as-is.
* The frame is `JSON.stringify(\x7bclient: this.whoami(), ...message\x7d)`.
* A throwing `ws.send` is logged; if its message contains "closed" the client
  is marked DISCONNECTED. -/
def Client.send (now : String) (c : Client) (message : JValue)
    (options : Option WebsocketMessageOptions) : SendEffect :=
  if !c.canReceiveMessages then ⟨c, [], 1⟩
  else
    let msg : JValue :=
      match message with
      | .str s =>
        Message.Create now
          [("type", .str "message"), ("content", .obj [("message", .str s)])] options
      | m => m
    let payload : JObj := assign [("client", .obj c.whoami)] (spreadFields msg)
    match c.sendError with
    | none => ⟨c, [JValue.stringify (.obj payload)], 0⟩
    | some err =>
      if strIncludes err "closed" then ⟨c.markDisconnected, [], 1⟩ else ⟨c, [], 1⟩

/-! ## `Channel.ts`: fan-out (`broadcast`) -/

/-- `Channel` as the broadcaster sees it: `members` is the insertion-ordered
`Map` of client id to client. -/
structure Channel where
  id : String
  name : String
  limit : Nat
  members : List (String × Client)
  metadata : List (String × String)
  deriving Repr, DecidableEq

namespace Channel

def getMetadata (ch : Channel) : JObj :=
  ch.metadata.map (fun p => (p.1, .str p.2))

/-- `getFilteredMetadata(keys)`: keep only the requested keys that exist. -/
def getFilteredMetadata (ch : Channel) (keys : List String) : JObj :=
  keys.foldl
    (fun filtered k =>
      match getKey? ch.getMetadata k with
      | some v => setKey filtered k v
      | none => filtered)
    []

def hasMember (ch : Channel) (clientId : String) : Bool :=
  ch.members.any (fun p => p.1 == clientId)

def getSize (ch : Channel) : Nat := ch.members.length

def canAddMember (ch : Channel) : Bool := ch.getSize < ch.limit

end Channel

/-- Observable effect of one `Channel.broadcast` call: the per-member raw
transport writes `(clientId, frame)` (the `client.ws.send` path), the
pub/sub publication `(topic, frame)` if any, and the warning count. -/
structure BroadcastEffect where
  writes : List (String × String)
  published : Option (String × String)
  warnings : Nat
  deriving Repr, DecidableEq

/-- `Channel.broadcast(message, options?)` (`Channel.ts` lines 51-87).
* A string message is wrapped as `\x7btype:"message", content:\x7bmessage\x7d\x7d`.
* The envelope is built by `Message.Create` with `channel` forced to the
  channel id (`\x7b...options, channel: this.id\x7d`).
* `includeMetadata` attaches full or key-filtered channel metadata.
* With a non-empty `excludeClients` the serialized frame is written through
  each non-excluded member's raw `client.ws.send`; a throwing send is caught,
  logged and the loop continues (here: `filterMap` over the member list plus
  a warning count).  No publish happens on this path.
* Otherwise one `server.publish(this.id, frame)`. -/
def Channel.broadcast (now : String) (ch : Channel) (message : JValue)
    (options : Option WebsocketMessageOptions) : BroadcastEffect :=
  let message : JValue :=
    match message with
    | .str s => .obj [("type", .str "message"), ("content", .obj [("message", .str s)])]
    | m => m
  let output :=
    Message.Create now (spreadFields message)
      (some { (options.getD {}) with channel := some ch.id })
  let output : JValue :=
    match options.bind (·.includeMetadata) with
    | some (.bool true) =>
      match output with
      | .obj fs => .obj (setKey fs "metadata" (.obj ch.getMetadata))
      | v => v
    | some (.keys ks) =>
      match output with
      | .obj fs => .obj (setKey fs "metadata" (.obj (ch.getFilteredMetadata ks)))
      | v => v
    | _ => output
  let serializedMessage := Message.Serialize output
  match options.bind (·.excludeClients) with
  | some ex =>
    if ex.length > 0 then
      -- per-member path: the member's raw socket, no state gate
      let writes :=
        ch.members.filterMap (fun p =>
          if !ex.contains p.1 && p.2.sendError == none then some (p.1, serializedMessage)
          else none)
      let warnings := ch.members.countP (fun p => !ex.contains p.1 && p.2.sendError != none)
      ⟨writes, none, warnings⟩
    else ⟨[], some (ch.id, serializedMessage), 0⟩
  | none => ⟨[], some (ch.id, serializedMessage), 0⟩

/-! ## `Websocket.ts`: hub-level static `Broadcast` -/

namespace Websocket

/-- `Websocket.Broadcast(channel, message, ...args)` (`Websocket.ts` lines
144-151): throws if no server is bound, otherwise publishes
`JSON.stringify(\x7bmessage, args\x7d)` — the envelope wrapped in an extra
object — on the channel topic. -/
def Broadcast (serverSet : Bool) (channel : String) (message : JValue)
    (args : List JValue) : Except String (String × String) :=
  if !serverSet then .error "Websocket server not set"
  else .ok (channel, JValue.stringify (.obj [("message", message), ("args", .arr args)]))

end Websocket

/-! ## Coordination layer: membership with two-way Client↔Channel bookkeeping

`Channel.addMember` / `removeMember` mutate both the channel (`members` map)
and the client (`channels` map, transport subscriptions).  Here a channel's
`members` is its key set (the values are the registered client objects), and a
hub registry `Sys` carries the single mutable copy of every object, so that
JS reference mutation becomes an update of the registry entry. -/

/-- The membership view of a `Channel`. -/
structure ChannelState where
  id : String
  name : String
  limit : Nat
  members : List String
  deriving Repr, DecidableEq

/-- Hub registry: `_channels` and `_clients` maps of `Websocket.ts`. -/
structure Sys where
  channels : List (String × ChannelState)
  clients : List (String × Client)
  deriving Repr, DecidableEq

/-- `Map.get`. -/
def lookupA {α : Type} (l : List (String × α)) (k : String) : Option α :=
  (l.find? (fun p => p.1 == k)).map Prod.snd

/-- Update the value stored under key `k` (reference mutation of the object
registered at `k`). -/
def updAssoc {α : Type} (l : List (String × α)) (k : String) (f : α → α) :
    List (String × α) :=
  l.map (fun p => if p.1 = k then (p.1, f p.2) else p)

namespace Sys

def getChannel (sys : Sys) (chId : String) : Option ChannelState :=
  lookupA sys.channels chId

def getClient (sys : Sys) (cid : String) : Option Client :=
  lookupA sys.clients cid

def updChannel (sys : Sys) (chId : String) (f : ChannelState → ChannelState) : Sys :=
  { sys with channels := updAssoc sys.channels chId f }

def updClient (sys : Sys) (cid : String) (f : Client → Client) : Sys :=
  { sys with clients := updAssoc sys.clients cid f }

/-- `_clients.set(id, client)`: replace or append. -/
def setClientEntry (sys : Sys) (cid : String) (c : Client) : Sys :=
  if sys.clients.any (fun p => p.1 == cid) then sys.updClient cid (fun _ => c)
  else { sys with clients := sys.clients ++ [(cid, c)] }

/-- Write back the mutated channel and client objects. -/
def commit (sys : Sys) (chId : String) (ch : ChannelState) (cid : String) (cl : Client) :
    Sys :=
  (sys.updChannel chId (fun _ => ch)).updClient cid (fun _ => cl)

end Sys

/-- `AddMemberResult` (shape as used by `Channel.ts`):
`\x7bsuccess:true, client\x7d` or `\x7bsuccess:false, reason, error?\x7d`.
The `error` variant is produced only by the `try/catch` around
`members.set` in `addToMembersMap`, and `Map.set` cannot throw, so the model
never constructs it. -/
inductive AddMemberResult where
  | success
  | already_member
  | full
  | error (msg : String)
  deriving Repr, DecidableEq

structure AddMemberOptions where
  notify : Bool := false
  notify_when_full : Bool := false
  deriving Repr, DecidableEq

structure RemoveMemberOptions where
  notify : Bool := false
  deriving Repr, DecidableEq

/-- `notifyChannelFull` envelope (`Channel.ts` lines 195-204). -/
def channelFullMessage (ch : ChannelState) : JValue :=
  .obj [("type", .str E_WebsocketMessageType.ERROR),
        ("content", .obj [
          ("message", .str ("Channel \"" ++ ch.name ++ "\" is full ("
            ++ toString ch.limit ++ " members)")),
          ("code", .str "CHANNEL_FULL"),
          ("channel", .str ch.id)])]

/-- Join notification (`Channel.ts` lines 163-170). -/
def joinChannelMessage (ch : ChannelState) (cl : Client) : JValue :=
  .obj [("type", .str E_WebsocketMessageType.CLIENT_JOIN_CHANNEL),
        ("content", .obj [("message", .str "Welcome to the channel")]),
        ("channel", .str ch.id),
        ("client", .obj cl.whoami)]

/-- Leave notification (`Channel.ts` lines 236-243). -/
def leaveChannelMessage (ch : ChannelState) (cl : Client) : JValue :=
  .obj [("type", .str E_WebsocketMessageType.CLIENT_LEAVE_CHANNEL),
        ("content", .obj [("message", .str "You left the channel")]),
        ("channel", .str ch.id),
        ("client", .obj cl.whoami)]

/-- Welcome envelope of the default open handler (`Websocket.ts` line 104). -/
def welcomeMessage (cl : Client) : JValue :=
  .obj [("type", .str E_WebsocketMessageType.CLIENT_CONNECTED),
        ("content", .obj [("message", .str "Welcome to the server"),
                          ("client", .obj cl.whoami)])]

/-- Result of a completed (non-throwing) `addMember` call. -/
structure AddMemberOut where
  result : AddMemberResult
  channel : ChannelState
  client : Client
  writes : List (String × String)
  warnings : Nat
  deriving Repr, DecidableEq

/-- `Channel.addMember(client, options?)` (`Channel.ts` lines 147-180) acting
on the channel and client objects.
1. `addToMembersMap`: reject a present member (`already_member`); reject when
   `!canAddMember()` (`full`, optionally notifying the client); otherwise
   insert into `members`.
2. `client.subscribe(this.id)`; 3. `client.trackChannel(this)`;
4. optional join notification (`client.send` swallows its own errors).
On a throw in 2-4 (in the model only `ws.subscribe` can throw, per the
client's `subscribeFails` flag): remove membership, unsubscribe, untrack,
and re-throw (`Except.error` carrying the rolled-back objects). -/
def ChannelState.addMember (now : String) (ch : ChannelState) (cl : Client)
    (opts : AddMemberOptions) : Except (String × ChannelState × Client) AddMemberOut :=
  if cl.id ∈ ch.members then .ok ⟨.already_member, ch, cl, [], 0⟩
  else if !(ch.members.length < ch.limit) then
    if opts.notify_when_full then
      let eff := Client.send now cl (channelFullMessage ch) none
      .ok ⟨.full, ch, eff.client, eff.writes.map (fun w => (cl.id, w)), eff.warnings⟩
    else .ok ⟨.full, ch, cl, [], 0⟩
  else
    let ch1 := { ch with members := ch.members ++ [cl.id] }
    if cl.subscribeFails then
      let ch2 := { ch1 with members := ch1.members.filter (· ≠ cl.id) }
      let cl2 := (cl.unsubscribe ch.id).untrackChannel ch.id
      .error ("subscribe failed", ch2, cl2)
    else
      let cl1 := (cl.subscribe ch.id).trackChannel ch.id
      if opts.notify then
        let eff := Client.send now cl1 (joinChannelMessage ch cl1) none
        .ok ⟨.success, ch1, eff.client, eff.writes.map (fun w => (cl.id, w)), eff.warnings⟩
      else .ok ⟨.success, ch1, cl1, [], 0⟩

/-- `Channel.removeMember(entity, options?)` (`Channel.ts` lines 220-246):
`none` models the `false` return (not a member, nothing mutated); otherwise
delete membership, unsubscribe, untrack, optionally notify, and return the
mutated objects with the send effects. -/
def ChannelState.removeMember (now : String) (ch : ChannelState) (cl : Client)
    (opts : RemoveMemberOptions) :
    Option (ChannelState × Client × List (String × String) × Nat) :=
  if cl.id ∉ ch.members then none
  else
    let ch1 := { ch with members := ch.members.filter (· ≠ cl.id) }
    let cl1 := (cl.unsubscribe ch.id).untrackChannel ch.id
    if opts.notify then
      let eff := Client.send now cl1 (leaveChannelMessage ch cl1) none
      some (ch1, eff.client, eff.writes.map (fun w => (cl.id, w)), eff.warnings)
    else some (ch1, cl1, [], 0)

/-- `\x7bsuccess, reason\x7d` as returned by `Client.joinChannel`. -/
structure JoinOut where
  success : Bool
  reason : String
  channel : ChannelState
  client : Client
  writes : List (String × String)
  warnings : Nat
  deriving Repr, DecidableEq

/-- `Client.joinChannel(channel, send=true)` (`Client.ts` lines 136-152):
already-tracked channels are rejected without delegation; otherwise delegate
to `channel.addMember(this, \x7bnotify: send\x7d)` and translate. -/
def Client.joinChannel (now : String) (cl : Client) (ch : ChannelState) (send : Bool) :
    Except (String × ChannelState × Client) JoinOut :=
  if ch.id ∈ cl.channels then .ok ⟨false, "already_member", ch, cl, [], 0⟩
  else
    match ch.addMember now cl { notify := send } with
    | .error e => .error e
    | .ok out =>
      match out.result with
      | .success => .ok ⟨true, "", out.channel, out.client, out.writes, out.warnings⟩
      | .already_member =>
        .ok ⟨false, "already_member", out.channel, out.client, out.writes, out.warnings⟩
      | .full => .ok ⟨false, "full", out.channel, out.client, out.writes, out.warnings⟩
      | .error _ => .ok ⟨false, "error", out.channel, out.client, out.writes, out.warnings⟩

/-- `Client.leaveChannel(channel, send=true)` (`Client.ts` lines 158-168):
no-op unless tracked, else delegate to `channel.removeMember`. -/
def Client.leaveChannel (now : String) (cl : Client) (ch : ChannelState) (send : Bool) :
    ChannelState × Client × List (String × String) × Nat :=
  if ch.id ∉ cl.channels then (ch, cl, [], 0)
  else
    match ch.removeMember now cl { notify := send } with
    | some r => r
    | none => (ch, cl, [], 0)

/-! ### Hub lifecycle handlers and the operation runner -/

/-- One observable hub operation. -/
inductive Op where
  | addMember (chId cid : String) (opts : AddMemberOptions)
  | removeMember (chId cid : String) (opts : RemoveMemberOptions)
  | joinChannel (chId cid : String) (send : Bool)
  | leaveChannel (chId cid : String) (send : Bool)
  | clientConnected (id name : String) (subscribeFails : Bool) (sendError : Option String)
  | clientDisconnected (id : String)
  deriving Repr

/-- The channel-membership subset of `Op` (the operations claims C1/C2 range
over). -/
def Op.isMembershipOp : Op → Bool
  | .addMember .. => true
  | .removeMember .. => true
  | .joinChannel .. => true
  | .leaveChannel .. => true
  | _ => false

/-- System state after an operation, with the transport writes `(clientId,
frame)` it performed and its warning count. -/
structure StepOut where
  sys : Sys
  writes : List (String × String)
  warnings : Nat
  deriving Repr, DecidableEq

namespace Sys

/-- Resolve ids and run `channel.addMember(client, opts)`; unresolved ids are
a no-op (there is no object to call with, cf. `Websocket.Join`).  A thrown
rollback escapes the caller but the rolled-back mutations persist. -/
def stepAddMember (now : String) (sys : Sys) (chId cid : String)
    (opts : AddMemberOptions) : StepOut :=
  match sys.getChannel chId, sys.getClient cid with
  | some ch, some cl =>
    match ch.addMember now cl opts with
    | .ok out => ⟨sys.commit chId out.channel cid out.client, out.writes, out.warnings⟩
    | .error (_, ch2, cl2) => ⟨sys.commit chId ch2 cid cl2, [], 0⟩
  | _, _ => ⟨sys, [], 0⟩

def stepRemoveMember (now : String) (sys : Sys) (chId cid : String)
    (opts : RemoveMemberOptions) : StepOut :=
  match sys.getChannel chId, sys.getClient cid with
  | some ch, some cl =>
    match ch.removeMember now cl opts with
    | some (ch1, cl1, w, n) => ⟨sys.commit chId ch1 cid cl1, w, n⟩
    | none => ⟨sys, [], 0⟩
  | _, _ => ⟨sys, [], 0⟩

def stepJoinChannel (now : String) (sys : Sys) (chId cid : String) (send : Bool) :
    StepOut :=
  match sys.getChannel chId, sys.getClient cid with
  | some ch, some cl =>
    match cl.joinChannel now ch send with
    | .ok out => ⟨sys.commit chId out.channel cid out.client, out.writes, out.warnings⟩
    | .error (_, ch2, cl2) => ⟨sys.commit chId ch2 cid cl2, [], 0⟩
  | _, _ => ⟨sys, [], 0⟩

def stepLeaveChannel (now : String) (sys : Sys) (chId cid : String) (send : Bool) :
    StepOut :=
  match sys.getChannel chId, sys.getClient cid with
  | some ch, some cl =>
    let (ch1, cl1, w, n) := cl.leaveChannel now ch send
    ⟨sys.commit chId ch1 cid cl1, w, n⟩
  | _, _ => ⟨sys, [], 0⟩

/-- Default open handler `clientConnected` (`Websocket.ts` lines 96-106):
fetch "global" (missing global throws before anything mutates — modelled as
the unchanged state), construct the client (state CONNECTING), register it,
send the welcome envelope (state-gated), add to "global". -/
def clientConnected (now : String) (sys : Sys) (id name : String)
    (subscribeFails : Bool) (sendError : Option String) : StepOut :=
  match sys.getChannel "global" with
  | none => ⟨sys, [], 0⟩
  | some global =>
    let client := Client.mk' id name subscribeFails sendError
    let sys1 := sys.setClientEntry id client
    let eff := Client.send now client (welcomeMessage client) none
    let sys2 := sys1.updClient id (fun _ => eff.client)
    match global.addMember now eff.client {} with
    | .ok out =>
      ⟨sys2.commit "global" out.channel id out.client,
        eff.writes.map (fun w => (id, w)) ++ out.writes,
        eff.warnings + out.warnings⟩
    | .error (_, ch2, cl2) =>
      ⟨sys2.commit "global" ch2 id cl2, eff.writes.map (fun w => (id, w)), eff.warnings⟩

/-- Default close handler `clientDisconnected` (`Websocket.ts` lines 108-120):
look the client up (absent: return), remove it from every channel, then drop
it from the registry. -/
def clientDisconnected (now : String) (sys : Sys) (id : String) : StepOut :=
  match sys.getClient id with
  | none => ⟨sys, [], 0⟩
  | some _ =>
    let keys := sys.channels.map Prod.fst
    let sys1 :=
      keys.foldl
        (fun s k =>
          match s.getChannel k, s.getClient id with
          | some ch, some cl =>
            match ch.removeMember now cl {} with
            | some (ch1, cl1, _, _) => s.commit k ch1 id cl1
            | none => s
          | _, _ => s)
        sys
    ⟨{ sys1 with clients := sys1.clients.filter (fun p => p.1 ≠ id) }, [], 0⟩

def step (now : String) (sys : Sys) : Op → StepOut
  | .addMember chId cid opts => sys.stepAddMember now chId cid opts
  | .removeMember chId cid opts => sys.stepRemoveMember now chId cid opts
  | .joinChannel chId cid send => sys.stepJoinChannel now chId cid send
  | .leaveChannel chId cid send => sys.stepLeaveChannel now chId cid send
  | .clientConnected id name sf se => sys.clientConnected now id name sf se
  | .clientDisconnected id => sys.clientDisconnected now id

/-- Run a sequence of operations, accumulating writes and warnings. -/
def run (now : String) (sys : Sys) (ops : List Op) : StepOut :=
  ops.foldl
    (fun acc op =>
      let out := acc.sys.step now op
      ⟨out.sys, acc.writes ++ out.writes, acc.warnings + out.warnings⟩)
    ⟨sys, [], 0⟩

end Sys

/-! ## Basic lemmas about the embedded operations -/

/-- The send gate: a client that cannot receive messages is returned
unchanged, nothing is written, one warning is logged. -/
theorem Client.send_gate (now : String) (c : Client) (m : JValue)
    (o : Option WebsocketMessageOptions) (h : c.canReceiveMessages = false) :
    Client.send now c m o = ⟨c, [], 1⟩ := by
  simp [Client.send, h]

/-- `send` never touches identity, channel bookkeeping, subscriptions or the
transport flags of the client (only `state` can change, via
`markDisconnected`). -/
theorem Client.send_client_fields (now : String) (c : Client) (m : JValue)
    (o : Option WebsocketMessageOptions) :
    (Client.send now c m o).client.id = c.id ∧
    (Client.send now c m o).client.name = c.name ∧
    (Client.send now c m o).client.channels = c.channels ∧
    (Client.send now c m o).client.subs = c.subs ∧
    (Client.send now c m o).client.subscribeFails = c.subscribeFails ∧
    (Client.send now c m o).client.sendError = c.sendError := by
  unfold Client.send
  split
  · simp
  · rcases hse : c.sendError with _ | err
    · simp [hse]
    · simp only [hse]
      split <;> simp [Client.markDisconnected, hse]

/-- `canReceiveMessages` in terms of the state. -/
theorem Client.canReceiveMessages_iff (c : Client) :
    c.canReceiveMessages = true ↔
      (c.state = .CONNECTED ∨ c.state = .DISCONNECTING) := by
  simp [Client.canReceiveMessages]

/-- A client that can receive stays in the same state unless the transport
reports closure; in particular the state after `send` is the old state or
DISCONNECTED. -/
theorem Client.send_state (now : String) (c : Client) (m : JValue)
    (o : Option WebsocketMessageOptions) :
    (Client.send now c m o).client.state = c.state ∨
    (Client.send now c m o).client.state = .DISCONNECTED := by
  unfold Client.send
  split
  · simp
  · rcases hse : c.sendError with _ | err
    · simp [hse]
    · simp only [hse]
      split <;> simp [Client.markDisconnected]

/-! ### Association-list lemmas (the `Map` embedding) -/

theorem lookupA_mem {α : Type} {l : List (String × α)} {k : String} {v : α}
    (h : lookupA l k = some v) : (k, v) ∈ l := by
  unfold lookupA at h
  rcases ho : l.find? (fun p => p.1 == k) with _ | p
  · rw [ho] at h; simp at h
  · rw [ho] at h
    simp at h
    have hm := List.mem_of_find?_eq_some ho
    have hp := List.find?_some ho
    obtain ⟨a, b⟩ := p
    simp at hp h
    subst hp; subst h
    exact hm

theorem mem_updAssoc {α : Type} {l : List (String × α)} {k : String} {f : α → α}
    {p : String × α} (hp : p ∈ updAssoc l k f) :
    (p ∈ l ∧ p.1 ≠ k) ∨ ∃ v, (k, v) ∈ l ∧ p = (k, f v) := by
  unfold updAssoc at hp
  rcases List.mem_map.mp hp with ⟨q, hq, hqe⟩
  by_cases h : q.1 = k
  · right
    refine ⟨q.2, ?_, ?_⟩
    · obtain ⟨a, b⟩ := q; simp at h; subst h; exact hq
    · rw [← hqe, if_pos h, h]
  · left
    rw [if_neg h] at hqe
    subst hqe
    exact ⟨hq, h⟩

theorem keys_updAssoc {α : Type} (l : List (String × α)) (k : String) (f : α → α) :
    (updAssoc l k f).map Prod.fst = l.map Prod.fst := by
  induction l with
  | nil => rfl
  | cons a t ih =>
    simp only [updAssoc, List.map_cons] at ih ⊢
    refine congrArg₂ _ ?_ ih
    split <;> simp

theorem assoc_unique {α : Type} {l : List (String × α)}
    (hnd : (l.map Prod.fst).Nodup) {k : String} {v v' : α}
    (h1 : (k, v) ∈ l) (h2 : (k, v') ∈ l) : v = v' := by
  induction l with
  | nil => simp at h1
  | cons a t ih =>
    simp only [List.map_cons, List.nodup_cons] at hnd
    rcases hnd with ⟨ha, hndt⟩
    rcases List.mem_cons.mp h1 with h1 | h1 <;> rcases List.mem_cons.mp h2 with h2 | h2
    · have h3 : (k, v) = ((k, v') : String × α) := h1.trans h2.symm
      simpa using h3
    · exact absurd (List.mem_map.mpr ⟨_, h2, by rw [← h1]⟩) ha
    · exact absurd (List.mem_map.mpr ⟨_, h1, by rw [← h2]⟩) ha
    · exact ih hndt h1 h2

theorem lookupA_cons {α : Type} (a : String × α) (t : List (String × α)) (k : String) :
    lookupA (a :: t) k = if a.1 == k then some a.2 else lookupA t k := by
  unfold lookupA
  rw [List.find?_cons]
  cases h : (a.1 == k) <;> simp [h]

theorem lookupA_eq_some {α : Type} {l : List (String × α)}
    (hnd : (l.map Prod.fst).Nodup) {k : String} {v : α}
    (h : (k, v) ∈ l) : lookupA l k = some v := by
  induction l with
  | nil => simp at h
  | cons a t ih =>
    simp only [List.map_cons, List.nodup_cons] at hnd
    rcases hnd with ⟨ha, hndt⟩
    rcases List.mem_cons.mp h with h | h
    · subst h; simp [lookupA]
    · have hk : (a.1 == k) = false := by
        simp only [beq_eq_false_iff_ne, ne_eq]
        intro he
        exact ha (List.mem_map.mpr ⟨_, h, he.symm⟩)
      rw [lookupA_cons, hk]
      simpa using ih hndt h

/-! ### Counting writes: `filterMap` and `countP` helpers -/

theorem filterMap_ite {α β : Type} (cond : α → Bool) (h : α → β) (l : List α) :
    l.filterMap (fun a => if cond a then some (h a) else none) = (l.filter cond).map h := by
  induction l with
  | nil => rfl
  | cons a t ih => by_cases hc : cond a <;> simp [hc, ih]

/-- In a list with pairwise-distinct keys, the number of entries matching both
a predicate and a given element's key is 1 or 0, decided by the predicate at
that element. -/
theorem countP_key_nodup {α : Type} {l : List (String × α)}
    (hnd : (l.map Prod.fst).Nodup) {p : String × α} (hp : p ∈ l)
    (cond : String × α → Bool) :
    l.countP (fun a => (a.1 == p.1) && cond a) = if cond p then 1 else 0 := by
  induction l with
  | nil => simp at hp
  | cons a t ih =>
    simp only [List.map_cons, List.nodup_cons] at hnd
    rcases hnd with ⟨ha, hndt⟩
    rcases List.mem_cons.mp hp with rfl | hp'
    · rw [List.countP_cons]
      have hz : t.countP (fun x => (x.1 == p.1) && cond x) = 0 := by
        apply List.countP_eq_zero.mpr
        intro x hx
        have : x.1 ≠ p.1 := by
          intro he
          exact ha (List.mem_map.mpr ⟨x, hx, he⟩)
        simp [this]
      rw [hz]
      simp
    · rw [List.countP_cons]
      have hane : (a.1 == p.1) = false := by
        simp only [beq_eq_false_iff_ne, ne_eq]
        intro he
        exact ha (List.mem_map.mpr ⟨p, hp', he.symm⟩)
      simp [hane, ih hndt hp']

/-! ### Key-set lemmas for the JS object operations -/

theorem hasKey_iff {o : JObj} {k : String} :
    hasKey o k = true ↔ k ∈ o.map Prod.fst := by
  simp [hasKey, List.any_eq_true, List.mem_map, beq_iff_eq]

theorem keys_setKey_of_has {o : JObj} {k' : String} (v : JValue)
    (h : hasKey o k' = true) :
    (setKey o k' v).map Prod.fst = o.map Prod.fst := by
  unfold setKey
  rw [if_pos h, List.map_map]
  apply List.map_congr_left
  intro p _
  by_cases hp : p.1 = k'
  · simp [hp]
  · simp [hp]

theorem mem_keys_setKey {o : JObj} {k' : String} {v : JValue} {k : String} :
    k ∈ (setKey o k' v).map Prod.fst ↔ k ∈ o.map Prod.fst ∨ k = k' := by
  by_cases h : hasKey o k' = true
  · rw [keys_setKey_of_has v h]
    constructor
    · exact Or.inl
    · rintro (hk | rfl)
      · exact hk
      · exact hasKey_iff.mp h
  · unfold setKey
    rw [if_neg h]
    simp

theorem mem_keys_delKey {o : JObj} {k' k : String} :
    k ∈ (delKey o k').map Prod.fst ↔ k ∈ o.map Prod.fst ∧ k ≠ k' := by
  unfold delKey
  constructor
  · intro h
    rcases List.mem_map.mp h with ⟨p, hp, rfl⟩
    rcases List.mem_filter.mp hp with ⟨hpo, hpk⟩
    simp at hpk
    exact ⟨List.mem_map.mpr ⟨p, hpo, rfl⟩, hpk⟩
  · rintro ⟨hk, hne⟩
    rcases List.mem_map.mp hk with ⟨p, hp, rfl⟩
    refine List.mem_map.mpr ⟨p, List.mem_filter.mpr ⟨hp, ?_⟩, rfl⟩
    simpa using hne

theorem mem_keys_assign {o src : JObj} {k : String} :
    k ∈ (assign o src).map Prod.fst ↔ k ∈ o.map Prod.fst ∨ k ∈ src.map Prod.fst := by
  induction src generalizing o with
  | nil => simp [assign]
  | cons a t ih =>
    show k ∈ (assign (setKey o a.1 a.2) t).map Prod.fst ↔ _
    rw [ih, mem_keys_setKey]
    simp only [List.map_cons, List.mem_cons]
    tauto

/-! ### Which top-level keys can `Message.Create` emit? -/

theorem mem_keys_createBase {message : JObj} {optChannel : Option String} {k : String}
    (h : k ∈ (Message.createBase message optChannel).map Prod.fst) :
    k = "type" ∨ k = "content" ∨ k = "channel" ∨ k = "timestamp" := by
  unfold Message.createBase at h
  rw [mem_keys_setKey, mem_keys_setKey, mem_keys_setKey] at h
  simp at h
  tauto

theorem mem_keys_applyData {d : Option JValue} {output : JObj} {k : String}
    (h : k ∈ (Message.applyData d output).map Prod.fst) :
    k ∈ output.map Prod.fst ∨ k = "content" := by
  unfold Message.applyData Message.updContent at h
  rcases d with _ | d
  · exact Or.inl h
  · rcases d <;> (rw [mem_keys_setKey] at h; exact h)

theorem mem_keys_applyClient {c? : Option JValue} {output : JObj} {k : String}
    (h : k ∈ (Message.applyClient c? output).map Prod.fst) :
    k ∈ output.map Prod.fst ∨ k = "client" := by
  unfold Message.applyClient at h
  rcases c? with _ | c
  · exact Or.inl h
  · split at h
    case h_1 =>
      split at h
      · rw [mem_keys_setKey] at h; exact h
      · exact Or.inl h
    case h_2 => exact Or.inl h

theorem mem_keys_applyMetadataOpt {m? : Option JValue} {output : JObj} {k : String}
    (h : k ∈ (Message.applyMetadataOpt m? output).map Prod.fst) :
    k ∈ output.map Prod.fst ∨ k = "metadata" := by
  unfold Message.applyMetadataOpt at h
  rcases m? with _ | m
  · exact Or.inl h
  · split at h
    case h_1 =>
      split at h
      · rw [mem_keys_setKey] at h; exact h
      · exact Or.inl h
    case h_2 => exact Or.inl h

theorem mem_keys_applyTimestamp {now : String} {it : Option Bool} {output : JObj}
    {k : String} (h : k ∈ (Message.applyTimestamp now it output).map Prod.fst) :
    k ∈ output.map Prod.fst ∨ k = "timestamp" := by
  unfold Message.applyTimestamp at h
  split at h
  · rw [mem_keys_setKey] at h; exact h
  · rw [mem_keys_delKey] at h; exact Or.inl h.1

theorem mem_keys_applyPriority {p? : Option Int} {output : JObj} {k : String}
    (h : k ∈ (Message.applyPriority p? output).map Prod.fst) :
    k ∈ output.map Prod.fst ∨ k = "priority" := by
  unfold Message.applyPriority at h
  rcases p? with _ | p
  · exact Or.inl h
  · rw [mem_keys_setKey] at h; exact h

theorem mem_keys_applyExpiresAt {e? : Option Int} {output : JObj} {k : String}
    (h : k ∈ (Message.applyExpiresAt e? output).map Prod.fst) :
    k ∈ output.map Prod.fst ∨ k = "expiresAt" := by
  unfold Message.applyExpiresAt at h
  rcases e? with _ | e
  · exact Or.inl h
  · rw [mem_keys_setKey] at h; exact h

theorem mem_keys_applyCustomFields {fs? : Option JObj} {output : JObj} {k : String}
    (h : k ∈ (Message.applyCustomFields fs? output).map Prod.fst) :
    k ∈ output.map Prod.fst ∨ ∃ fs, fs? = some fs ∧ k ∈ fs.map Prod.fst := by
  unfold Message.applyCustomFields at h
  rcases fs? with _ | fs
  · exact Or.inl h
  · rw [mem_keys_assign] at h
    rcases h with h | h
    · exact Or.inl h
    · exact Or.inr ⟨fs, rfl, h⟩

/-- The envelope keys `Message.Create` itself can produce (when `transform` is
absent): the template/option keys, plus whatever `customFields` injects. -/
theorem create_topKeys (now : String) (message : JObj) (o : WebsocketMessageOptions)
    (htr : o.transform = none) {k : String}
    (hk : k ∈ topKeys (Message.Create now message (some o))) :
    k ∈ (["type", "content", "channel", "timestamp", "client", "metadata",
          "priority", "expiresAt"] : List String)
    ∨ ∃ fs, o.customFields = some fs ∧ k ∈ fs.map Prod.fst := by
  simp only [Message.Create, htr, topKeys] at hk
  rcases mem_keys_applyCustomFields hk with h | hcf
  · rcases mem_keys_applyExpiresAt h with h | rfl
    rotate_left
    · left; simp
    rcases mem_keys_applyPriority h with h | rfl
    rotate_left
    · left; simp
    rcases mem_keys_applyTimestamp h with h | rfl
    rotate_left
    · left; simp
    rcases mem_keys_applyMetadataOpt h with h | rfl
    rotate_left
    · left; simp
    rcases mem_keys_applyClient h with h | rfl
    rotate_left
    · left; simp
    rcases mem_keys_applyData h with h | rfl
    rotate_left
    · left; simp
    rcases mem_keys_createBase h with rfl | rfl | rfl | rfl <;> (left; simp)
  · exact Or.inr hcf

/-! ### Field lemmas for the client bookkeeping helpers -/

theorem Client.subscribe_fields (c : Client) (t : String) :
    (c.subscribe t).id = c.id ∧ (c.subscribe t).channels = c.channels ∧
    (c.subscribe t).state = c.state := by
  unfold Client.subscribe
  split <;> simp

theorem Client.unsubscribe_fields (c : Client) (t : String) :
    (c.unsubscribe t).id = c.id ∧ (c.unsubscribe t).channels = c.channels ∧
    (c.unsubscribe t).state = c.state := by
  simp [Client.unsubscribe]

theorem Client.trackChannel_fields (c : Client) (t : String) :
    (c.trackChannel t).id = c.id ∧ (c.trackChannel t).subs = c.subs ∧
    (c.trackChannel t).state = c.state := by
  unfold Client.trackChannel
  split <;> simp

theorem Client.untrackChannel_fields (c : Client) (t : String) :
    (c.untrackChannel t).id = c.id ∧ (c.untrackChannel t).subs = c.subs ∧
    (c.untrackChannel t).state = c.state := by
  simp [Client.untrackChannel]

theorem Client.trackChannel_mem (c : Client) (t y : String) :
    y ∈ (c.trackChannel t).channels ↔ (y ∈ c.channels ∨ y = t) := by
  unfold Client.trackChannel
  split
  · constructor
    · exact Or.inl
    · rintro (h | rfl)
      · exact h
      · assumption
  · simp [List.mem_append]

theorem Client.untrackChannel_mem (c : Client) (t y : String) :
    y ∈ (c.untrackChannel t).channels ↔ (y ∈ c.channels ∧ y ≠ t) := by
  simp [Client.untrackChannel, List.mem_filter]

/-! ### Behavioural case analysis of the membership operations -/

/-- `addMember` either completes (`already_member`/`full` leave the channel
membership and the client's channel map untouched; `success` adds exactly the
one pairing) or throws after a rollback that removes the pairing from both
sides.  The channel id, limit and client id survive every branch, and the
capacity bound is preserved. -/
theorem addMember_spec (now : String) (ch : ChannelState) (cl : Client)
    (opts : AddMemberOptions) :
    (∃ out, ChannelState.addMember now ch cl opts = .ok out ∧
      out.channel.id = ch.id ∧ out.channel.limit = ch.limit ∧
      out.client.id = cl.id ∧
      (ch.members.length ≤ ch.limit → out.channel.members.length ≤ ch.limit) ∧
      (((∀ x, x ∈ out.channel.members ↔ x ∈ ch.members) ∧
        out.client.channels = cl.channels)
       ∨ ((∀ x, x ∈ out.channel.members ↔ (x ∈ ch.members ∨ x = cl.id)) ∧
          (∀ y, y ∈ out.client.channels ↔ (y ∈ cl.channels ∨ y = ch.id)))))
  ∨ (∃ e ch2 cl2, ChannelState.addMember now ch cl opts = .error (e, ch2, cl2) ∧
      ch2.id = ch.id ∧ ch2.limit = ch.limit ∧ cl2.id = cl.id ∧
      (ch.members.length ≤ ch.limit → ch2.members.length ≤ ch.limit) ∧
      (∀ x, x ∈ ch2.members ↔ (x ∈ ch.members ∧ x ≠ cl.id)) ∧
      (∀ y, y ∈ cl2.channels ↔ (y ∈ cl.channels ∧ y ≠ ch.id))) := by
  unfold ChannelState.addMember
  by_cases h1 : cl.id ∈ ch.members
  · rw [if_pos h1]
    exact Or.inl ⟨_, rfl, rfl, rfl, rfl, fun h => h, Or.inl ⟨fun x => Iff.rfl, rfl⟩⟩
  · rw [if_neg h1]
    by_cases h2 : ch.members.length < ch.limit
    · have hb : (!decide (ch.members.length < ch.limit)) = false := by simp [h2]
      rw [hb]
      simp only [Bool.false_eq_true, if_false]
      by_cases h3 : cl.subscribeFails = true
      · rw [if_pos h3]
        refine Or.inr ⟨_, _, _, rfl, rfl, rfl, ?_, ?_, ?_, ?_⟩
        · exact ((cl.unsubscribe ch.id).untrackChannel_fields ch.id).1.trans
            (cl.unsubscribe_fields ch.id).1
        · intro hle
          calc ((ch.members ++ [cl.id]).filter (· ≠ cl.id)).length
              = (ch.members.filter (· ≠ cl.id)).length := by
                simp [List.filter_append]
            _ ≤ ch.members.length := List.length_filter_le _ _
            _ ≤ ch.limit := hle
        · intro x
          simp only [List.mem_filter, List.mem_append, List.mem_singleton,
            decide_eq_true_eq]
          constructor
          · rintro ⟨h | h, hne⟩
            · exact ⟨h, hne⟩
            · exact absurd h hne
          · rintro ⟨h, hne⟩
            exact ⟨Or.inl h, hne⟩
        · intro y
          rw [Client.untrackChannel_mem, (cl.unsubscribe_fields ch.id).2.1]
      · rw [if_neg h3]
        by_cases h4 : opts.notify = true
        · rw [if_pos h4]
          refine Or.inl ⟨_, rfl, rfl, rfl, ?_, ?_, Or.inr ⟨?_, ?_⟩⟩
          · exact (Client.send_client_fields ..).1.trans
              (((cl.subscribe ch.id).trackChannel_fields ch.id).1.trans
                (cl.subscribe_fields ch.id).1)
          · intro hle
            simpa using h2
          · intro x
            simp [List.mem_append]
          · intro y
            rw [(Client.send_client_fields ..).2.2.1, Client.trackChannel_mem,
              (cl.subscribe_fields ch.id).2.1]
        · rw [if_neg h4]
          refine Or.inl ⟨_, rfl, rfl, rfl, ?_, ?_, Or.inr ⟨?_, ?_⟩⟩
          · exact ((cl.subscribe ch.id).trackChannel_fields ch.id).1.trans
              (cl.subscribe_fields ch.id).1
          · intro hle
            simpa using h2
          · intro x
            simp [List.mem_append]
          · intro y
            rw [Client.trackChannel_mem, (cl.subscribe_fields ch.id).2.1]
    · have hb : (!decide (ch.members.length < ch.limit)) = true := by simp [h2]
      rw [hb]
      simp only [if_true]
      by_cases h4 : opts.notify_when_full = true
      · rw [if_pos h4]
        refine Or.inl ⟨_, rfl, rfl, rfl, ?_, fun h => h, Or.inl ⟨fun x => Iff.rfl, ?_⟩⟩
        · exact (Client.send_client_fields ..).1
        · exact (Client.send_client_fields ..).2.2.1
      · rw [if_neg h4]
        exact Or.inl ⟨_, rfl, rfl, rfl, rfl, fun h => h, Or.inl ⟨fun x => Iff.rfl, rfl⟩⟩

/-- `removeMember` either returns `false` (`none`: not a member, nothing
mutated) or removes the pairing from both sides. -/
theorem removeMember_spec (now : String) (ch : ChannelState) (cl : Client)
    (opts : RemoveMemberOptions) :
    (ChannelState.removeMember now ch cl opts = none ∧ cl.id ∉ ch.members)
  ∨ (∃ ch1 cl1 w n, ChannelState.removeMember now ch cl opts = some (ch1, cl1, w, n) ∧
      ch1.id = ch.id ∧ ch1.limit = ch.limit ∧ cl1.id = cl.id ∧
      ch1.members.length ≤ ch.members.length ∧
      (∀ x, x ∈ ch1.members ↔ (x ∈ ch.members ∧ x ≠ cl.id)) ∧
      (∀ y, y ∈ cl1.channels ↔ (y ∈ cl.channels ∧ y ≠ ch.id))) := by
  unfold ChannelState.removeMember
  by_cases h1 : cl.id ∈ ch.members
  · have : ¬(cl.id ∉ ch.members) := by simpa using h1
    rw [if_neg this]
    by_cases h4 : opts.notify = true
    · rw [if_pos h4]
      refine Or.inr ⟨_, _, _, _, rfl, rfl, rfl, ?_, List.length_filter_le _ _, ?_, ?_⟩
      · exact (Client.send_client_fields ..).1.trans
          (((cl.unsubscribe ch.id).untrackChannel_fields ch.id).1.trans
            (cl.unsubscribe_fields ch.id).1)
      · intro x
        simp [List.mem_filter]
      · intro y
        rw [(Client.send_client_fields ..).2.2.1, Client.untrackChannel_mem,
          (cl.unsubscribe_fields ch.id).2.1]
    · rw [if_neg h4]
      refine Or.inr ⟨_, _, _, _, rfl, rfl, rfl, ?_, List.length_filter_le _ _, ?_, ?_⟩
      · exact ((cl.unsubscribe ch.id).untrackChannel_fields ch.id).1.trans
          (cl.unsubscribe_fields ch.id).1
      · intro x
        simp [List.mem_filter]
      · intro y
        rw [Client.untrackChannel_mem, (cl.unsubscribe_fields ch.id).2.1]
  · rw [if_pos h1]
    exact Or.inl ⟨rfl, h1⟩

/-! ### System invariants -/

namespace Sys

/-- Registry well-formedness: keys are object ids and are pairwise distinct
(`Map` semantics). -/
def wf (sys : Sys) : Prop :=
  (∀ p ∈ sys.channels, p.2.id = p.1) ∧ (∀ p ∈ sys.clients, p.2.id = p.1) ∧
  (sys.channels.map Prod.fst).Nodup ∧ (sys.clients.map Prod.fst).Nodup

/-- Two-way coordination: a client id appears in a channel's `members` exactly
when the channel id appears in that client's `channels`. -/
def coordinated (sys : Sys) : Prop :=
  ∀ p ∈ sys.channels, ∀ q ∈ sys.clients, (q.1 ∈ p.2.members ↔ p.1 ∈ q.2.channels)

/-- Capacity: no channel holds more members than its limit. -/
def capacityInv (sys : Sys) : Prop :=
  ∀ p ∈ sys.channels, p.2.members.length ≤ p.2.limit

/-- No registered client is in a receivable state (CONNECTED/DISCONNECTING). -/
def noReceivable (sys : Sys) : Prop :=
  ∀ p ∈ sys.clients, p.2.canReceiveMessages = false

theorem wf_commit {sys : Sys} {chId cid : String} {ch : ChannelState} {cl : Client}
    {ch' : ChannelState} {cl' : Client}
    (hwf : sys.wf)
    (hch : sys.getChannel chId = some ch) (hcl : sys.getClient cid = some cl)
    (hid : ch'.id = ch.id) (hcid : cl'.id = cl.id) :
    (sys.commit chId ch' cid cl').wf := by
  obtain ⟨hw1, hw2, hw3, hw4⟩ := hwf
  have hchm : (chId, ch) ∈ sys.channels := lookupA_mem hch
  have hclm : (cid, cl) ∈ sys.clients := lookupA_mem hcl
  refine ⟨?_, ?_, ?_, ?_⟩
  · intro p hp
    simp only [Sys.commit, Sys.updChannel, Sys.updClient] at hp
    rcases mem_updAssoc hp with ⟨hpo, _⟩ | ⟨v, hv, rfl⟩
    · exact hw1 _ hpo
    · simpa using hid.trans (hw1 _ hchm)
  · intro q hq
    simp only [Sys.commit, Sys.updChannel, Sys.updClient] at hq
    rcases mem_updAssoc hq with ⟨hqo, _⟩ | ⟨v, hv, rfl⟩
    · exact hw2 _ hqo
    · simpa using hcid.trans (hw2 _ hclm)
  · simpa [Sys.commit, Sys.updChannel, Sys.updClient, keys_updAssoc] using hw3
  · simpa [Sys.commit, Sys.updChannel, Sys.updClient, keys_updAssoc] using hw4

/-- The central preservation argument: if an operation flips (or keeps) the
single pairing `cid ∈ chId.members` / `chId ∈ cid.channels` in tandem —
both described by the same proposition `P` — and touches nothing else,
committing it preserves coordination. -/
theorem coordinated_commit {sys : Sys} {chId cid : String} {ch : ChannelState}
    {cl : Client} {ch' : ChannelState} {cl' : Client} {P : Prop}
    (hwf : sys.wf) (hco : sys.coordinated)
    (hch : sys.getChannel chId = some ch) (hcl : sys.getClient cid = some cl)
    (hm : ∀ x, x ∈ ch'.members ↔ ((x ∈ ch.members ∧ x ≠ cid) ∨ (x = cid ∧ P)))
    (hc : ∀ y, y ∈ cl'.channels ↔ ((y ∈ cl.channels ∧ y ≠ chId) ∨ (y = chId ∧ P))) :
    (sys.commit chId ch' cid cl').coordinated := by
  obtain ⟨hw1, hw2, hw3, hw4⟩ := hwf
  have hchm : (chId, ch) ∈ sys.channels := lookupA_mem hch
  have hclm : (cid, cl) ∈ sys.clients := lookupA_mem hcl
  intro p hp q hq
  simp only [Sys.commit, Sys.updChannel, Sys.updClient] at hp hq
  rcases mem_updAssoc hp with ⟨hpo, hpne⟩ | ⟨v, hv, rfl⟩ <;>
    rcases mem_updAssoc hq with ⟨hqo, hqne⟩ | ⟨w, hw, rfl⟩
  · exact hco _ hpo _ hqo
  · -- old channel, updated client entry
    have h1 := hco _ hpo _ hclm
    rw [hc p.1]
    constructor
    · intro hx
      exact Or.inl ⟨h1.mp hx, hpne⟩
    · rintro (⟨hx, _⟩ | ⟨he, _⟩)
      · exact h1.mpr hx
      · exact absurd he hpne
  · -- updated channel entry, old client
    have h1 := hco _ hchm _ hqo
    rw [hm q.1]
    constructor
    · rintro (⟨hx, _⟩ | ⟨he, _⟩)
      · exact h1.mp hx
      · exact absurd he hqne
    · intro hx
      exact Or.inl ⟨h1.mpr hx, hqne⟩
  · -- both updated
    rw [hm, hc]
    simp

theorem capacity_commit {sys : Sys} {chId cid : String} {ch : ChannelState}
    {ch' : ChannelState} {cl' : Client}
    (hcap : sys.capacityInv) (hch : sys.getChannel chId = some ch)
    (hlim : ch'.limit = ch.limit)
    (hlen : ch.members.length ≤ ch.limit → ch'.members.length ≤ ch.limit) :
    (sys.commit chId ch' cid cl').capacityInv := by
  intro p hp
  simp only [Sys.commit, Sys.updChannel, Sys.updClient] at hp
  rcases mem_updAssoc hp with ⟨hpo, _⟩ | ⟨v, hv, rfl⟩
  · exact hcap _ hpo
  · have := hlen (hcap _ (lookupA_mem hch))
    simpa [hlim] using this

theorem noRecv_commit {sys : Sys} {chId cid : String}
    {ch' : ChannelState} {cl : Client} {cl' : Client}
    (hnr : sys.noReceivable) (hcl : sys.getClient cid = some cl)
    (hst : cl'.state = cl.state) :
    (sys.commit chId ch' cid cl').noReceivable := by
  intro q hq
  simp only [Sys.commit, Sys.updChannel, Sys.updClient] at hq
  rcases mem_updAssoc hq with ⟨hqo, _⟩ | ⟨v, hv, rfl⟩
  · exact hnr _ hqo
  · have := hnr _ (lookupA_mem hcl)
    simpa [Client.canReceiveMessages, hst] using this

end Sys

theorem Client.canReceiveMessages_state {c c' : Client} (h : c'.state = c.state) :
    c'.canReceiveMessages = c.canReceiveMessages := by
  unfold Client.canReceiveMessages
  rw [h]

/-- `joinChannel` refines `addMember`: same effect on both membership sides
(or a pure no-op when the channel is already tracked). -/
theorem joinChannel_spec (now : String) (ch : ChannelState) (cl : Client) (send : Bool) :
    (∃ out : JoinOut, Client.joinChannel now cl ch send = .ok out ∧
      out.channel.id = ch.id ∧ out.channel.limit = ch.limit ∧ out.client.id = cl.id ∧
      (ch.members.length ≤ ch.limit → out.channel.members.length ≤ ch.limit) ∧
      (((∀ x, x ∈ out.channel.members ↔ x ∈ ch.members) ∧
        out.client.channels = cl.channels)
       ∨ ((∀ x, x ∈ out.channel.members ↔ (x ∈ ch.members ∨ x = cl.id)) ∧
          (∀ y, y ∈ out.client.channels ↔ (y ∈ cl.channels ∨ y = ch.id)))))
  ∨ (∃ e ch2 cl2, Client.joinChannel now cl ch send = .error (e, ch2, cl2) ∧
      ch2.id = ch.id ∧ ch2.limit = ch.limit ∧ cl2.id = cl.id ∧
      (ch.members.length ≤ ch.limit → ch2.members.length ≤ ch.limit) ∧
      (∀ x, x ∈ ch2.members ↔ (x ∈ ch.members ∧ x ≠ cl.id)) ∧
      (∀ y, y ∈ cl2.channels ↔ (y ∈ cl.channels ∧ y ≠ ch.id))) := by
  unfold Client.joinChannel
  by_cases h : ch.id ∈ cl.channels
  · rw [if_pos h]
    exact Or.inl ⟨_, rfl, rfl, rfl, rfl, fun h => h, Or.inl ⟨fun _ => Iff.rfl, rfl⟩⟩
  · rw [if_neg h]
    rcases addMember_spec now ch cl { notify := send } with
      ⟨out, heq, h1, h2, h3, h4, h5⟩ | ⟨e, ch2, cl2, heq, hs1, hs2, hs3, hs4, hs5, hs6⟩
    · obtain ⟨res, och, ocl, ow, own⟩ := out
      cases res <;> exact Or.inl ⟨_, by rw [heq], h1, h2, h3, h4, h5⟩
    · exact Or.inr ⟨e, ch2, cl2, by rw [heq], hs1, hs2, hs3, hs4, hs5, hs6⟩

/-- `leaveChannel` refines `removeMember` (always completes). -/
theorem leaveChannel_spec (now : String) (ch : ChannelState) (cl : Client) (send : Bool) :
    ∃ ch1 cl1 w n, Client.leaveChannel now cl ch send = (ch1, cl1, w, n) ∧
      ch1.id = ch.id ∧ ch1.limit = ch.limit ∧ cl1.id = cl.id ∧
      ch1.members.length ≤ ch.members.length ∧
      (((∀ x, x ∈ ch1.members ↔ x ∈ ch.members) ∧ cl1.channels = cl.channels)
       ∨ ((∀ x, x ∈ ch1.members ↔ (x ∈ ch.members ∧ x ≠ cl.id)) ∧
          (∀ y, y ∈ cl1.channels ↔ (y ∈ cl.channels ∧ y ≠ ch.id)))) := by
  unfold Client.leaveChannel
  by_cases h : ch.id ∈ cl.channels
  · have : ¬(ch.id ∉ cl.channels) := by simpa using h
    rw [if_neg this]
    rcases removeMember_spec now ch cl { notify := send } with
      ⟨heq, _⟩ | ⟨ch1, cl1, w, n, heq, hs1, hs2, hs3, hs4, hs5, hs6⟩
    · rw [heq]
      exact ⟨ch, cl, [], 0, rfl, rfl, rfl, rfl, le_refl _,
        Or.inl ⟨fun _ => Iff.rfl, rfl⟩⟩
    · rw [heq]
      exact ⟨ch1, cl1, w, n, rfl, hs1, hs2, hs3, hs4, Or.inr ⟨hs5, hs6⟩⟩
  · rw [if_pos h]
    exact ⟨ch, cl, [], 0, rfl, rfl, rfl, rfl, le_refl _,
      Or.inl ⟨fun _ => Iff.rfl, rfl⟩⟩

/-! ### State-gate lemmas: unreceivable clients stay unreceivable, and no
membership operation writes anything to them -/

theorem addMember_gated (now : String) (ch : ChannelState) (cl : Client)
    (opts : AddMemberOptions) (h : cl.canReceiveMessages = false) :
    (∀ out, ChannelState.addMember now ch cl opts = .ok out →
      out.client.state = cl.state ∧ out.writes = [])
    ∧ (∀ e ch2 cl2, ChannelState.addMember now ch cl opts = .error (e, ch2, cl2) →
      cl2.state = cl.state) := by
  unfold ChannelState.addMember
  by_cases h1 : cl.id ∈ ch.members
  · rw [if_pos h1]
    constructor
    · intro out ho
      cases ho
      exact ⟨rfl, rfl⟩
    · intro e c2 l2 ho
      cases ho
  · rw [if_neg h1]
    by_cases h2 : ch.members.length < ch.limit
    · have hb : (!decide (ch.members.length < ch.limit)) = false := by simp [h2]
      rw [hb]
      simp only [Bool.false_eq_true, if_false]
      by_cases h3 : cl.subscribeFails = true
      · rw [if_pos h3]
        constructor
        · intro out ho
          cases ho
        · intro e c2 l2 ho
          cases ho
          exact ((cl.unsubscribe ch.id).untrackChannel_fields ch.id).2.2.trans
            (cl.unsubscribe_fields ch.id).2.2
      · rw [if_neg h3]
        have hst : ((cl.subscribe ch.id).trackChannel ch.id).state = cl.state :=
          ((cl.subscribe ch.id).trackChannel_fields ch.id).2.2.trans
            (cl.subscribe_fields ch.id).2.2
        by_cases h4 : opts.notify = true
        · rw [if_pos h4]
          have hg : ((cl.subscribe ch.id).trackChannel ch.id).canReceiveMessages = false :=
            (Client.canReceiveMessages_state hst).trans h
          rw [Client.send_gate _ _ _ _ hg]
          constructor
          · intro out ho
            cases ho
            exact ⟨hst, rfl⟩
          · intro e c2 l2 ho
            cases ho
        · rw [if_neg h4]
          constructor
          · intro out ho
            cases ho
            exact ⟨hst, rfl⟩
          · intro e c2 l2 ho
            cases ho
    · have hb : (!decide (ch.members.length < ch.limit)) = true := by simp [h2]
      rw [hb]
      simp only [if_true]
      by_cases h4 : opts.notify_when_full = true
      · rw [if_pos h4]
        rw [Client.send_gate _ _ _ _ h]
        constructor
        · intro out ho
          cases ho
          exact ⟨rfl, rfl⟩
        · intro e c2 l2 ho
          cases ho
      · rw [if_neg h4]
        constructor
        · intro out ho
          cases ho
          exact ⟨rfl, rfl⟩
        · intro e c2 l2 ho
          cases ho

theorem removeMember_gated (now : String) (ch : ChannelState) (cl : Client)
    (opts : RemoveMemberOptions) (h : cl.canReceiveMessages = false) :
    ∀ ch1 cl1 w n, ChannelState.removeMember now ch cl opts = some (ch1, cl1, w, n) →
      cl1.state = cl.state ∧ w = [] := by
  unfold ChannelState.removeMember
  by_cases h1 : cl.id ∉ ch.members
  · rw [if_pos h1]
    intro ch1 cl1 w n ho
    cases ho
  · rw [if_neg h1]
    have hst : ((cl.unsubscribe ch.id).untrackChannel ch.id).state = cl.state :=
      ((cl.unsubscribe ch.id).untrackChannel_fields ch.id).2.2.trans
        (cl.unsubscribe_fields ch.id).2.2
    by_cases h4 : opts.notify = true
    · rw [if_pos h4]
      have hg : ((cl.unsubscribe ch.id).untrackChannel ch.id).canReceiveMessages = false :=
        (Client.canReceiveMessages_state hst).trans h
      rw [Client.send_gate _ _ _ _ hg]
      intro ch1 cl1 w n ho
      cases ho
      exact ⟨hst, rfl⟩
    · rw [if_neg h4]
      intro ch1 cl1 w n ho
      cases ho
      exact ⟨hst, rfl⟩

/-! ### Per-operation invariant preservation -/

namespace Sys

/-- All three membership shapes an operation can leave behind (untouched /
pairing added / pairing removed) preserve well-formedness and coordination
once committed. -/
theorem commit_inv_of_spec {sys : Sys} {chId cid : String} {ch : ChannelState}
    {cl : Client} {ch' : ChannelState} {cl' : Client}
    (hwf : sys.wf) (hco : sys.coordinated)
    (hch : sys.getChannel chId = some ch) (hcl : sys.getClient cid = some cl)
    (hid : ch'.id = ch.id) (hcid : cl'.id = cl.id)
    (hshape :
      ((∀ x, x ∈ ch'.members ↔ x ∈ ch.members) ∧ cl'.channels = cl.channels)
      ∨ ((∀ x, x ∈ ch'.members ↔ (x ∈ ch.members ∨ x = cl.id)) ∧
         (∀ y, y ∈ cl'.channels ↔ (y ∈ cl.channels ∨ y = ch.id)))
      ∨ ((∀ x, x ∈ ch'.members ↔ (x ∈ ch.members ∧ x ≠ cl.id)) ∧
         (∀ y, y ∈ cl'.channels ↔ (y ∈ cl.channels ∧ y ≠ ch.id)))) :
    (sys.commit chId ch' cid cl').wf ∧ (sys.commit chId ch' cid cl').coordinated := by
  have hchm := lookupA_mem hch
  have hclm := lookupA_mem hcl
  have hchid : ch.id = chId := hwf.1 _ hchm
  have hclid : cl.id = cid := hwf.2.1 _ hclm
  refine ⟨Sys.wf_commit hwf hch hcl hid hcid, ?_⟩
  rcases hshape with ⟨hm, hc⟩ | ⟨hm, hc⟩ | ⟨hm, hc⟩
  · have hcc := hco _ hchm _ hclm
    refine Sys.coordinated_commit (P := cid ∈ ch.members) hwf hco hch hcl ?_ ?_
    · intro x
      rw [hm x]
      by_cases hx : x = cid
      · subst hx; tauto
      · tauto
    · intro y
      rw [hc]
      by_cases hy : y = chId
      · subst hy; tauto
      · tauto
  · refine Sys.coordinated_commit (P := True) hwf hco hch hcl ?_ ?_
    · intro x
      rw [hm x, hclid]
      by_cases hx : x = cid
      · subst hx; tauto
      · tauto
    · intro y
      rw [hc y, hchid]
      by_cases hy : y = chId
      · subst hy; tauto
      · tauto
  · refine Sys.coordinated_commit (P := False) hwf hco hch hcl ?_ ?_
    · intro x
      rw [hm x, hclid]
      tauto
    · intro y
      rw [hc y, hchid]
      tauto

/-- Every membership operation preserves well-formedness and two-way
coordination. -/
theorem step_wf_coordinated (now : String) (sys : Sys) (op : Op)
    (hmem : op.isMembershipOp = true) (hwf : sys.wf) (hco : sys.coordinated) :
    (sys.step now op).sys.wf ∧ (sys.step now op).sys.coordinated := by
  cases op with
  | addMember chId cid opts =>
    suffices h : (sys.stepAddMember now chId cid opts).sys.wf ∧ (sys.stepAddMember now chId cid opts).sys.coordinated from h
    unfold Sys.stepAddMember
    rcases hch : sys.getChannel chId with _ | ch
    · exact ⟨hwf, hco⟩
    rcases hcl : sys.getClient cid with _ | cl
    · exact ⟨hwf, hco⟩
    dsimp only
    rcases addMember_spec now ch cl opts with
      ⟨out, heq, h1, _, h3, _, h5⟩ | ⟨e, ch2, cl2, heq, hs1, _, hs3, _, hs5, hs6⟩
    · rw [heq]
      refine commit_inv_of_spec hwf hco hch hcl h1 h3 ?_
      rcases h5 with h5 | h5
      · exact Or.inl h5
      · exact Or.inr (Or.inl h5)
    · rw [heq]
      exact commit_inv_of_spec hwf hco hch hcl hs1 hs3 (Or.inr (Or.inr ⟨hs5, hs6⟩))
  | removeMember chId cid opts =>
    suffices h : (sys.stepRemoveMember now chId cid opts).sys.wf ∧ (sys.stepRemoveMember now chId cid opts).sys.coordinated from h
    unfold Sys.stepRemoveMember
    rcases hch : sys.getChannel chId with _ | ch
    · exact ⟨hwf, hco⟩
    rcases hcl : sys.getClient cid with _ | cl
    · exact ⟨hwf, hco⟩
    dsimp only
    rcases removeMember_spec now ch cl opts with
      ⟨heq, _⟩ | ⟨ch1, cl1, w, n, heq, hs1, _, hs3, _, hs5, hs6⟩
    · rw [heq]; exact ⟨hwf, hco⟩
    · rw [heq]
      exact commit_inv_of_spec hwf hco hch hcl hs1 hs3 (Or.inr (Or.inr ⟨hs5, hs6⟩))
  | joinChannel chId cid send =>
    suffices h : (sys.stepJoinChannel now chId cid send).sys.wf ∧ (sys.stepJoinChannel now chId cid send).sys.coordinated from h
    unfold Sys.stepJoinChannel
    rcases hch : sys.getChannel chId with _ | ch
    · exact ⟨hwf, hco⟩
    rcases hcl : sys.getClient cid with _ | cl
    · exact ⟨hwf, hco⟩
    dsimp only
    rcases joinChannel_spec now ch cl send with
      ⟨out, heq, h1, _, h3, _, h5⟩ | ⟨e, ch2, cl2, heq, hs1, _, hs3, _, hs5, hs6⟩
    · rw [heq]
      refine commit_inv_of_spec hwf hco hch hcl h1 h3 ?_
      rcases h5 with h5 | h5
      · exact Or.inl h5
      · exact Or.inr (Or.inl h5)
    · rw [heq]
      exact commit_inv_of_spec hwf hco hch hcl hs1 hs3 (Or.inr (Or.inr ⟨hs5, hs6⟩))
  | leaveChannel chId cid send =>
    suffices h : (sys.stepLeaveChannel now chId cid send).sys.wf ∧ (sys.stepLeaveChannel now chId cid send).sys.coordinated from h
    unfold Sys.stepLeaveChannel
    rcases hch : sys.getChannel chId with _ | ch
    · exact ⟨hwf, hco⟩
    rcases hcl : sys.getClient cid with _ | cl
    · exact ⟨hwf, hco⟩
    dsimp only
    rcases leaveChannel_spec now ch cl send with
      ⟨ch1, cl1, w, n, heq, hs1, _, hs3, _, hs5⟩
    rw [heq]
    refine commit_inv_of_spec hwf hco hch hcl hs1 hs3 ?_
    rcases hs5 with h5 | h5
    · exact Or.inl h5
    · exact Or.inr (Or.inr h5)
  | clientConnected id name sf se => simp [Op.isMembershipOp] at hmem
  | clientDisconnected id => simp [Op.isMembershipOp] at hmem

/-- Every membership operation preserves the capacity invariant. -/
theorem step_capacity (now : String) (sys : Sys) (op : Op)
    (hmem : op.isMembershipOp = true) (hcap : sys.capacityInv) :
    (sys.step now op).sys.capacityInv := by
  cases op with
  | addMember chId cid opts =>
    show (sys.stepAddMember now chId cid opts).sys.capacityInv
    unfold Sys.stepAddMember
    rcases hch : sys.getChannel chId with _ | ch
    · exact hcap
    rcases hcl : sys.getClient cid with _ | cl
    · exact hcap
    dsimp only
    rcases addMember_spec now ch cl opts with
      ⟨out, heq, _, h2, _, h4, _⟩ | ⟨e, ch2, cl2, heq, _, hs2, _, hs4, _, _⟩
    · rw [heq]
      exact capacity_commit hcap hch h2 h4
    · rw [heq]
      exact capacity_commit hcap hch hs2 hs4
  | removeMember chId cid opts =>
    show (sys.stepRemoveMember now chId cid opts).sys.capacityInv
    unfold Sys.stepRemoveMember
    rcases hch : sys.getChannel chId with _ | ch
    · exact hcap
    rcases hcl : sys.getClient cid with _ | cl
    · exact hcap
    dsimp only
    rcases removeMember_spec now ch cl opts with
      ⟨heq, _⟩ | ⟨ch1, cl1, w, n, heq, _, hs2, _, hs4, _, _⟩
    · rw [heq]; exact hcap
    · rw [heq]
      exact capacity_commit hcap hch hs2 (fun h => le_trans hs4 h)
  | joinChannel chId cid send =>
    show (sys.stepJoinChannel now chId cid send).sys.capacityInv
    unfold Sys.stepJoinChannel
    rcases hch : sys.getChannel chId with _ | ch
    · exact hcap
    rcases hcl : sys.getClient cid with _ | cl
    · exact hcap
    dsimp only
    rcases joinChannel_spec now ch cl send with
      ⟨out, heq, _, h2, _, h4, _⟩ | ⟨e, ch2, cl2, heq, _, hs2, _, hs4, _, _⟩
    · rw [heq]
      exact capacity_commit hcap hch h2 h4
    · rw [heq]
      exact capacity_commit hcap hch hs2 hs4
  | leaveChannel chId cid send =>
    show (sys.stepLeaveChannel now chId cid send).sys.capacityInv
    unfold Sys.stepLeaveChannel
    rcases hch : sys.getChannel chId with _ | ch
    · exact hcap
    rcases hcl : sys.getClient cid with _ | cl
    · exact hcap
    dsimp only
    rcases leaveChannel_spec now ch cl send with
      ⟨ch1, cl1, w, n, heq, _, hs2, _, hs4, _⟩
    rw [heq]
    exact capacity_commit hcap hch hs2 (fun h => le_trans hs4 h)
  | clientConnected id name sf se => simp [Op.isMembershipOp] at hmem
  | clientDisconnected id => simp [Op.isMembershipOp] at hmem

end Sys

theorem joinChannel_gated (now : String) (ch : ChannelState) (cl : Client) (send : Bool)
    (h : cl.canReceiveMessages = false) :
    (∀ out : JoinOut, Client.joinChannel now cl ch send = .ok out →
      out.client.state = cl.state ∧ out.writes = [])
    ∧ (∀ e ch2 cl2, Client.joinChannel now cl ch send = .error (e, ch2, cl2) →
      cl2.state = cl.state) := by
  unfold Client.joinChannel
  by_cases hc : ch.id ∈ cl.channels
  · rw [if_pos hc]
    constructor
    · intro out ho
      cases ho
      exact ⟨rfl, rfl⟩
    · intro e c2 l2 ho
      cases ho
  · rw [if_neg hc]
    cases hadd : ChannelState.addMember now ch cl { notify := send } with
    | ok out' =>
      have hg := (addMember_gated now ch cl { notify := send } h).1 out' hadd
      obtain ⟨res, och, ocl, ow, own⟩ := out'
      cases res <;>
        (constructor
         · intro out ho
           cases ho
           exact hg
         · intro e c2 l2 ho
           cases ho)
    | error p =>
      obtain ⟨e, ch2, cl2⟩ := p
      have hg := (addMember_gated now ch cl { notify := send } h).2 e ch2 cl2 hadd
      constructor
      · intro out ho
        cases ho
      · intro e' c2' l2' ho
        cases ho
        exact hg

theorem leaveChannel_gated (now : String) (ch : ChannelState) (cl : Client) (send : Bool)
    (h : cl.canReceiveMessages = false) :
    ∀ ch1 cl1 w n, Client.leaveChannel now cl ch send = (ch1, cl1, w, n) →
      cl1.state = cl.state ∧ w = [] := by
  unfold Client.leaveChannel
  by_cases hc : ch.id ∉ cl.channels
  · rw [if_pos hc]
    intro ch1 cl1 w n ho
    cases ho
    exact ⟨rfl, rfl⟩
  · rw [if_neg hc]
    cases hrm : ChannelState.removeMember now ch cl { notify := send } with
    | some r =>
      obtain ⟨ch1', cl1', w', n'⟩ := r
      have hg := removeMember_gated now ch cl { notify := send } h ch1' cl1' w' n' hrm
      intro ch1 cl1 w n ho
      cases ho
      exact hg
    | none =>
      intro ch1 cl1 w n ho
      cases ho
      exact ⟨rfl, rfl⟩

/-! ### Registry membership after updates -/

namespace Sys

theorem mem_commit_clients {sys : Sys} {chId cid : String} {ch' : ChannelState}
    {cl' : Client} {q : String × Client}
    (hq : q ∈ (sys.commit chId ch' cid cl').clients) :
    q ∈ sys.clients ∨ q.2 = cl' := by
  simp only [Sys.commit, Sys.updChannel, Sys.updClient] at hq
  rcases mem_updAssoc hq with ⟨h, _⟩ | ⟨v, hv, rfl⟩
  · exact Or.inl h
  · exact Or.inr rfl

theorem mem_setClientEntry {sys : Sys} {cid : String} {c : Client} {q : String × Client}
    (hq : q ∈ (sys.setClientEntry cid c).clients) :
    q ∈ sys.clients ∨ q.2 = c := by
  unfold Sys.setClientEntry at hq
  split at hq
  · simp only [Sys.updClient] at hq
    rcases mem_updAssoc hq with ⟨h, _⟩ | ⟨v, hv, rfl⟩
    · exact Or.inl h
    · exact Or.inr rfl
  · rcases List.mem_append.mp hq with h | h
    · exact Or.inl h
    · simp at h
      exact Or.inr (by rw [h])

theorem mem_updClient_const {sys : Sys} {cid : String} {c : Client} {q : String × Client}
    (hq : q ∈ (sys.updClient cid (fun _ => c)).clients) :
    q ∈ sys.clients ∨ q.2 = c := by
  simp only [Sys.updClient] at hq
  rcases mem_updAssoc hq with ⟨h, _⟩ | ⟨v, hv, rfl⟩
  · exact Or.inl h
  · exact Or.inr rfl

end Sys

/-- A freshly constructed client starts in CONNECTING and cannot receive. -/
theorem Client.mk'_state (id name : String) (sf : Bool) (se : Option String) :
    (Client.mk' id name sf se).state = .CONNECTING ∧
    (Client.mk' id name sf se).canReceiveMessages = false :=
  ⟨rfl, rfl⟩

namespace Sys

/-- The default open handler keeps every client unreceivable (the fresh client
is CONNECTING) and performs no transport write: the welcome envelope is
dropped by the send gate. -/
theorem clientConnected_noRecv (now : String) (sys : Sys) (id name : String)
    (sf : Bool) (se : Option String) (hnr : sys.noReceivable) :
    (sys.clientConnected now id name sf se).sys.noReceivable ∧
    (sys.clientConnected now id name sf se).writes = [] := by
  unfold Sys.clientConnected
  rcases hg : sys.getChannel "global" with _ | global
  · exact ⟨hnr, rfl⟩
  have hcr : (Client.mk' id name sf se).canReceiveMessages = false := rfl
  dsimp only
  rw [Client.send_gate now (Client.mk' id name sf se)
    (welcomeMessage (Client.mk' id name sf se)) none hcr]
  dsimp only
  cases hadd : ChannelState.addMember now global (Client.mk' id name sf se) {} with
  | ok out =>
    have hg2 := (addMember_gated now global (Client.mk' id name sf se) {} hcr).1 out hadd
    constructor
    · intro q hq
      rcases Sys.mem_commit_clients hq with hq | hq
      · rcases Sys.mem_updClient_const hq with hq | hq
        · rcases Sys.mem_setClientEntry hq with hq | hq
          · exact hnr _ hq
          · rw [hq]; exact hcr
        · rw [hq]; exact hcr
      · rw [hq]
        exact (Client.canReceiveMessages_state hg2.1).trans hcr
    · simp [hg2.2]
  | error p =>
    obtain ⟨e, ch2, cl2⟩ := p
    have hg2 := (addMember_gated now global (Client.mk' id name sf se) {} hcr).2 e ch2 cl2 hadd
    constructor
    · intro q hq
      rcases Sys.mem_commit_clients hq with hq | hq
      · rcases Sys.mem_updClient_const hq with hq | hq
        · rcases Sys.mem_setClientEntry hq with hq | hq
          · exact hnr _ hq
          · rw [hq]; exact hcr
        · rw [hq]; exact hcr
      · rw [hq]
        exact (Client.canReceiveMessages_state hg2).trans hcr
    · simp

/-- The default close handler never writes and keeps clients unreceivable. -/
theorem clientDisconnected_noRecv (now : String) (sys : Sys) (id : String)
    (hnr : sys.noReceivable) :
    (sys.clientDisconnected now id).sys.noReceivable ∧
    (sys.clientDisconnected now id).writes = [] := by
  unfold Sys.clientDisconnected
  rcases hc : sys.getClient id with _ | cl0
  · exact ⟨hnr, rfl⟩
  dsimp only
  have hstep : ∀ (s : Sys) (k : String), s.noReceivable →
      Sys.noReceivable
        (match s.getChannel k, s.getClient id with
         | some ch, some cl =>
           match ChannelState.removeMember now ch cl {} with
           | some (ch1, cl1, _, _) => s.commit k ch1 id cl1
           | none => s
         | _, _ => s) := by
    intro s k hs
    rcases hch : s.getChannel k with _ | ch
    · exact hs
    rcases hcl : s.getClient id with _ | cl
    · exact hs
    dsimp only
    have hclr : cl.canReceiveMessages = false := hs _ (lookupA_mem hcl)
    rcases hrm : ChannelState.removeMember now ch cl {} with _ | ⟨ch1, cl1, w, n⟩
    · exact hs
    · have hg := removeMember_gated now ch cl {} hclr ch1 cl1 w n hrm
      dsimp only
      intro q hq
      rcases Sys.mem_commit_clients hq with hq | hq
      · exact hs _ hq
      · rw [hq]
        exact (Client.canReceiveMessages_state hg.1).trans hclr
  have hfold : ∀ (ks : List String) (s : Sys), s.noReceivable →
      Sys.noReceivable
        (ks.foldl
          (fun s k =>
            match s.getChannel k, s.getClient id with
            | some ch, some cl =>
              match ChannelState.removeMember now ch cl {} with
              | some (ch1, cl1, _, _) => s.commit k ch1 id cl1
              | none => s
            | _, _ => s)
          s) := by
    intro ks
    induction ks with
    | nil => intro s hs; exact hs
    | cons k t ih =>
      intro s hs
      exact ih _ (hstep s k hs)
  constructor
  · intro q hq
    rcases List.mem_filter.mp hq with ⟨hq', _⟩
    exact hfold _ _ hnr _ hq'
  · rfl

/-- No hub operation ever makes a client receivable, and from an
all-unreceivable state no operation produces a transport write. -/
theorem step_noRecv (now : String) (sys : Sys) (op : Op) (hnr : sys.noReceivable) :
    (sys.step now op).sys.noReceivable ∧ (sys.step now op).writes = [] := by
  cases op with
  | addMember chId cid opts =>
    suffices h : (sys.stepAddMember now chId cid opts).sys.noReceivable ∧
        (sys.stepAddMember now chId cid opts).writes = [] from h
    unfold Sys.stepAddMember
    rcases hch : sys.getChannel chId with _ | ch
    · exact ⟨hnr, rfl⟩
    rcases hcl : sys.getClient cid with _ | cl
    · exact ⟨hnr, rfl⟩
    dsimp only
    have hclr : cl.canReceiveMessages = false := hnr _ (lookupA_mem hcl)
    cases hadd : ChannelState.addMember now ch cl opts with
    | ok out =>
      have hg := (addMember_gated now ch cl opts hclr).1 out hadd
      constructor
      · intro q hq
        rcases Sys.mem_commit_clients hq with hq | hq
        · exact hnr _ hq
        · rw [hq]
          exact (Client.canReceiveMessages_state hg.1).trans hclr
      · exact hg.2
    | error p =>
      obtain ⟨e, ch2, cl2⟩ := p
      have hg := (addMember_gated now ch cl opts hclr).2 e ch2 cl2 hadd
      constructor
      · intro q hq
        rcases Sys.mem_commit_clients hq with hq | hq
        · exact hnr _ hq
        · rw [hq]
          exact (Client.canReceiveMessages_state hg).trans hclr
      · rfl
  | removeMember chId cid opts =>
    suffices h : (sys.stepRemoveMember now chId cid opts).sys.noReceivable ∧
        (sys.stepRemoveMember now chId cid opts).writes = [] from h
    unfold Sys.stepRemoveMember
    rcases hch : sys.getChannel chId with _ | ch
    · exact ⟨hnr, rfl⟩
    rcases hcl : sys.getClient cid with _ | cl
    · exact ⟨hnr, rfl⟩
    dsimp only
    have hclr : cl.canReceiveMessages = false := hnr _ (lookupA_mem hcl)
    rcases hrm : ChannelState.removeMember now ch cl opts with _ | ⟨ch1, cl1, w, n⟩
    · exact ⟨hnr, rfl⟩
    have hg := removeMember_gated now ch cl opts hclr ch1 cl1 w n hrm
    constructor
    · intro q hq
      rcases Sys.mem_commit_clients hq with hq | hq
      · exact hnr _ hq
      · rw [hq]
        exact (Client.canReceiveMessages_state hg.1).trans hclr
    · exact hg.2
  | joinChannel chId cid send =>
    suffices h : (sys.stepJoinChannel now chId cid send).sys.noReceivable ∧
        (sys.stepJoinChannel now chId cid send).writes = [] from h
    unfold Sys.stepJoinChannel
    rcases hch : sys.getChannel chId with _ | ch
    · exact ⟨hnr, rfl⟩
    rcases hcl : sys.getClient cid with _ | cl
    · exact ⟨hnr, rfl⟩
    dsimp only
    have hclr : cl.canReceiveMessages = false := hnr _ (lookupA_mem hcl)
    cases hj : Client.joinChannel now cl ch send with
    | ok out =>
      have hg := (joinChannel_gated now ch cl send hclr).1 out hj
      constructor
      · intro q hq
        rcases Sys.mem_commit_clients hq with hq | hq
        · exact hnr _ hq
        · rw [hq]
          exact (Client.canReceiveMessages_state hg.1).trans hclr
      · exact hg.2
    | error p =>
      obtain ⟨e, ch2, cl2⟩ := p
      have hg := (joinChannel_gated now ch cl send hclr).2 e ch2 cl2 hj
      constructor
      · intro q hq
        rcases Sys.mem_commit_clients hq with hq | hq
        · exact hnr _ hq
        · rw [hq]
          exact (Client.canReceiveMessages_state hg).trans hclr
      · rfl
  | leaveChannel chId cid send =>
    suffices h : (sys.stepLeaveChannel now chId cid send).sys.noReceivable ∧
        (sys.stepLeaveChannel now chId cid send).writes = [] from h
    unfold Sys.stepLeaveChannel
    rcases hch : sys.getChannel chId with _ | ch
    · exact ⟨hnr, rfl⟩
    rcases hcl : sys.getClient cid with _ | cl
    · exact ⟨hnr, rfl⟩
    dsimp only
    have hclr : cl.canReceiveMessages = false := hnr _ (lookupA_mem hcl)
    rcases leaveChannel_spec now ch cl send with ⟨ch1, cl1, w, n, heq, _⟩
    rw [heq]
    have hg := leaveChannel_gated now ch cl send hclr ch1 cl1 w n heq
    constructor
    · intro q hq
      rcases Sys.mem_commit_clients hq with hq | hq
      · exact hnr _ hq
      · rw [hq]
        exact (Client.canReceiveMessages_state hg.1).trans hclr
    · exact hg.2
  | clientConnected id name sf se => exact clientConnected_noRecv now sys id name sf se hnr
  | clientDisconnected id => exact clientDisconnected_noRecv now sys id hnr

end Sys

/-! ### Lifting per-step facts to operation sequences -/

namespace Sys

theorem run_nil (now : String) (sys : Sys) : Sys.run now sys [] = ⟨sys, [], 0⟩ := rfl

/-- The final system state of a fold depends only on the accumulator's system
component. -/
theorem foldl_sys_congr (now : String) (ops : List Op) :
    ∀ a b : StepOut, a.sys = b.sys →
    (ops.foldl
      (fun acc op =>
        let out := acc.sys.step now op
        ⟨out.sys, acc.writes ++ out.writes, acc.warnings + out.warnings⟩) a).sys =
    (ops.foldl
      (fun acc op =>
        let out := acc.sys.step now op
        ⟨out.sys, acc.writes ++ out.writes, acc.warnings + out.warnings⟩) b).sys := by
  induction ops with
  | nil => intro a b h; exact h
  | cons op t ih =>
    intro a b h
    simp only [List.foldl_cons]
    exact ih _ _ (by rw [h])

theorem run_cons_sys (now : String) (sys : Sys) (op : Op) (ops : List Op) :
    (Sys.run now sys (op :: ops)).sys = (Sys.run now (sys.step now op).sys ops).sys := by
  unfold Sys.run
  simp only [List.foldl_cons]
  exact foldl_sys_congr now ops _ _ rfl

/-- Preservation of a state predicate along any run whose operations satisfy
`Q`. -/
theorem run_sys_preserves (now : String) (P : Sys → Prop) (Q : Op → Prop)
    (hstep : ∀ s op, Q op → P s → P (s.step now op).sys) :
    ∀ (ops : List Op) (sys : Sys), (∀ op ∈ ops, Q op) → P sys →
      P (Sys.run now sys ops).sys := by
  intro ops
  induction ops with
  | nil => intro sys _ h; exact h
  | cons op t ih =>
    intro sys hops h
    rw [run_cons_sys]
    exact ih _ (fun o ho => hops o (List.mem_cons_of_mem _ ho))
      (hstep _ _ (hops op (List.mem_cons_self _ _)) h)

/-- The writes of a fold split into the accumulator's writes and the writes of
the same fold started with an empty accumulator. -/
theorem foldl_writes_split (now : String) (ops : List Op) :
    ∀ acc : StepOut,
      (ops.foldl
        (fun acc op =>
          let out := acc.sys.step now op
          ⟨out.sys, acc.writes ++ out.writes, acc.warnings + out.warnings⟩) acc).writes =
      acc.writes ++
        (ops.foldl
          (fun acc op =>
            let out := acc.sys.step now op
            ⟨out.sys, acc.writes ++ out.writes, acc.warnings + out.warnings⟩)
          (⟨acc.sys, [], 0⟩ : StepOut)).writes := by
  induction ops with
  | nil => intro acc; simp
  | cons op t ih =>
    intro acc
    simp only [List.foldl_cons]
    rw [ih]
    conv_rhs => rw [ih]
    simp

theorem run_cons_writes (now : String) (sys : Sys) (op : Op) (ops : List Op) :
    (Sys.run now sys (op :: ops)).writes =
      (sys.step now op).writes ++ (Sys.run now (sys.step now op).sys ops).writes := by
  unfold Sys.run
  simp only [List.foldl_cons]
  rw [foldl_writes_split]
  simp

/-- From an all-unreceivable state, a whole run stays unreceivable and writes
nothing at all. -/
theorem run_noRecv (now : String) :
    ∀ (ops : List Op) (sys : Sys), sys.noReceivable →
      (Sys.run now sys ops).sys.noReceivable ∧ (Sys.run now sys ops).writes = [] := by
  intro ops
  induction ops with
  | nil => intro sys h; exact ⟨h, rfl⟩
  | cons op t ih =>
    intro sys h
    have hs := step_noRecv now sys op h
    have ht := ih _ hs.1
    constructor
    · rw [run_cons_sys]; exact ht.1
    · rw [run_cons_writes, hs.2, ht.2]
      rfl

end Sys

/-! ### Shape of the two broadcast delivery paths -/

/-- With a non-empty `excludeClients`, `broadcast` takes the per-member path:
one raw-transport write attempt per non-excluded member (`filterMap` over the
member list), no publish, and one warning per failing member send. -/
theorem broadcast_exclude_spec (now : String) (ch : Channel) (m : JValue)
    (o : WebsocketMessageOptions) (ex : List String)
    (hex : o.excludeClients = some ex) (hne : ex ≠ []) :
    ∃ s : String,
      Channel.broadcast now ch m (some o) =
        ⟨ch.members.filterMap (fun p =>
            if !ex.contains p.1 && p.2.sendError == none then some (p.1, s) else none),
          none,
          ch.members.countP (fun p => !ex.contains p.1 && p.2.sendError != none)⟩ := by
  unfold Channel.broadcast
  dsimp only [Option.bind]
  rw [hex]
  dsimp only
  have hl : ex.length > 0 := List.length_pos.mpr hne
  rw [if_pos hl]
  exact ⟨_, rfl⟩

/-- With no (or an empty) `excludeClients`, `broadcast` publishes exactly once
on the channel topic and performs no per-member write. -/
theorem broadcast_publish_spec (now : String) (ch : Channel) (m : JValue)
    (o : Option WebsocketMessageOptions)
    (hex : (o.bind (·.excludeClients)) = none ∨ (o.bind (·.excludeClients)) = some []) :
    ∃ s, Channel.broadcast now ch m o = ⟨[], some (ch.id, s), 0⟩ := by
  unfold Channel.broadcast
  rcases hex with hex | hex <;> rw [hex] <;> dsimp only
  · exact ⟨_, rfl⟩
  · exact ⟨_, rfl⟩

/-- Per-member write count on the exclusion path: a member receives exactly
one write when not excluded and its transport works, and zero writes
otherwise — regardless of its connection state, and regardless of other
members' failures (the loop is not aborted). -/
theorem broadcast_writes_count (now : String) (ch : Channel) (m : JValue)
    (o : WebsocketMessageOptions) (ex : List String)
    (hnd : (ch.members.map Prod.fst).Nodup)
    (hex : o.excludeClients = some ex) (hne : ex ≠ []) {p : String × Client}
    (hp : p ∈ ch.members) :
    (Channel.broadcast now ch m (some o)).writes.countP (fun w => w.1 == p.1) =
      if p.1 ∉ ex ∧ p.2.sendError = none then 1 else 0 := by
  obtain ⟨s, hb⟩ := broadcast_exclude_spec now ch m o ex hex hne
  have h1 : (Channel.broadcast now ch m (some o)).writes =
      (ch.members.filter (fun p => !ex.contains p.1 && p.2.sendError == none)).map
        (fun p => (p.1, s)) := by
    rw [hb]
    exact filterMap_ite _ _ _
  rw [h1, List.countP_map, List.countP_filter]
  have h2 : ch.members.countP
      (fun a => ((fun w => w.1 == p.1) ∘ (fun p => (p.1, s))) a &&
        (!ex.contains a.1 && a.2.sendError == none)) =
      ch.members.countP
        (fun a => (a.1 == p.1) && (!ex.contains a.1 && a.2.sendError == none)) := rfl
  rw [h2, countP_key_nodup hnd hp]
  by_cases hc : p.1 ∉ ex ∧ p.2.sendError = none
  · rw [if_pos hc, if_pos]
    simp only [Bool.and_eq_true, Bool.not_eq_true', beq_iff_eq]
    constructor
    · simp [List.elem_eq_mem, hc.1]
    · exact hc.2
  · rw [if_neg hc, if_neg]
    simp only [Bool.and_eq_true, Bool.not_eq_true', beq_iff_eq, not_and]
    intro hcn hse
    exact hc ⟨by simpa [List.elem_eq_mem] using hcn, hse⟩

/-- At (or beyond) capacity, `addMember` on a non-member returns `full` and
the channel object — in particular the `members` map — is unchanged. -/
theorem addMember_full (now : String) (ch : ChannelState) (cl : Client)
    (opts : AddMemberOptions) (h1 : cl.id ∉ ch.members)
    (h2 : ch.limit ≤ ch.members.length) :
    ∃ out, ChannelState.addMember now ch cl opts = .ok out ∧
      out.result = .full ∧ out.channel = ch := by
  unfold ChannelState.addMember
  rw [if_neg h1]
  have hb : (!decide (ch.members.length < ch.limit)) = true := by
    simp [Nat.not_lt.mpr h2]
  rw [hb]
  simp only [if_true]
  by_cases h4 : opts.notify_when_full = true
  · rw [if_pos h4]
    exact ⟨_, rfl, rfl, rfl⟩
  · rw [if_neg h4]
    exact ⟨_, rfl, rfl, rfl⟩

/-- `Channel.hasMember` on the membership view. -/
def ChannelState.hasMember (ch : ChannelState) (clientId : String) : Bool :=
  ch.members.contains clientId

namespace Sys

/-- Sharper form: an entry surviving a commit under a different key, or the
committed client itself. -/
theorem mem_commit_clients' {sys : Sys} {chId cid : String} {ch' : ChannelState}
    {cl' : Client} {q : String × Client}
    (hq : q ∈ (sys.commit chId ch' cid cl').clients) :
    (q ∈ sys.clients ∧ q.1 ≠ cid) ∨ q.2 = cl' := by
  simp only [Sys.commit, Sys.updChannel, Sys.updClient] at hq
  rcases mem_updAssoc hq with ⟨h, hne⟩ | ⟨v, hv, rfl⟩
  · exact Or.inl ⟨h, hne⟩
  · exact Or.inr rfl

theorem mem_setClientEntry' {sys : Sys} {cid : String} {c : Client} {q : String × Client}
    (hq : q ∈ (sys.setClientEntry cid c).clients) :
    (q ∈ sys.clients ∧ q.1 ≠ cid) ∨ q.2 = c := by
  unfold Sys.setClientEntry at hq
  split at hq
  · simp only [Sys.updClient] at hq
    rcases mem_updAssoc hq with ⟨h, hne⟩ | ⟨v, hv, rfl⟩
    · exact Or.inl ⟨h, hne⟩
    · exact Or.inr rfl
  · next hany =>
    rcases List.mem_append.mp hq with h | h
    · refine Or.inl ⟨h, ?_⟩
      intro he
      exact hany (List.any_eq_true.mpr ⟨q, h, by simp [he]⟩)
    · simp at h
      exact Or.inr (by rw [h])

theorem mem_updClient_const' {sys : Sys} {cid : String} {c : Client} {q : String × Client}
    (hq : q ∈ (sys.updClient cid (fun _ => c)).clients) :
    (q ∈ sys.clients ∧ q.1 ≠ cid) ∨ q.2 = c := by
  simp only [Sys.updClient] at hq
  rcases mem_updAssoc hq with ⟨h, hne⟩ | ⟨v, hv, rfl⟩
  · exact Or.inl ⟨h, hne⟩
  · exact Or.inr rfl

end Sys

/-! ## Claim theorems

One theorem per claim of the specification review, stated over the embedded
operations, with concrete witnesses or counterexamples. -/

def payloadX : JValue := .obj [("type", .str "x"), ("content", .obj [("n", .num 1)])]

def chRoomFull : ChannelState := ⟨"room", "Room", 2, ["u1", "u2"]⟩

def clU1 : Client := ⟨"u1", "A", .CONNECTING, ["room"], ["room"], false, none⟩

def clU2 : Client := ⟨"u2", "B", .CONNECTING, ["room"], ["room"], false, none⟩

def clU3 : Client := ⟨"u3", "C", .CONNECTING, [], [], false, none⟩

def sysRoom : Sys :=
  ⟨[("room", chRoomFull)], [("u1", clU1), ("u2", clU2), ("u3", clU3)]⟩

/-- C1: for every channel and every sequence of addMember/removeMember (and
the join/leave wrappers), `|members| ≤ limit` holds at every observable
instant (every prefix of the run); and when a channel is at capacity,
`addMember` of a non-member returns `\x7bsuccess:false, reason:"full"\x7d`
and leaves the channel object — its members map included — unchanged. -/
theorem C1_capacity_invariant (now : String) :
    (∀ (sys : Sys) (ops : List Op), sys.capacityInv →
      (∀ op ∈ ops, op.isMembershipOp = true) →
      (Sys.run now sys ops).sys.capacityInv)
    ∧ (∀ (ch : ChannelState) (cl : Client) (opts : AddMemberOptions),
        cl.id ∉ ch.members → ch.limit ≤ ch.members.length →
        ∃ out, ChannelState.addMember now ch cl opts = .ok out ∧
          out.result = .full ∧ out.channel = ch) := by
  constructor
  · intro sys ops hcap hops
    exact Sys.run_sys_preserves now Sys.capacityInv (fun op => op.isMembershipOp = true)
      (fun s op hq hp => Sys.step_capacity now s op hq hp) ops sys hops hcap
  · intro ch cl opts h1 h2
    exact addMember_full now ch cl opts h1 h2

theorem C1_capacity_invariant_witness :
    (Sys.run "T" sysRoom
      [Op.addMember "room" "u3" ⟨false, true⟩, Op.removeMember "room" "u1" ⟨false⟩,
       Op.joinChannel "room" "u3" true]).sys.capacityInv
    ∧ ∃ out, ChannelState.addMember "T" chRoomFull clU3 ⟨false, true⟩ = .ok out ∧
        out.result = .full ∧ out.channel = chRoomFull := by
  constructor
  · exact (C1_capacity_invariant "T").1 sysRoom _ (by unfold Sys.capacityInv; decide) (by decide)
  · exact (C1_capacity_invariant "T").2 chRoomFull clU3 ⟨false, true⟩ (by decide) (by decide)

/-- C2: from any well-formed coordinated state, after any completed sequence
of addMember/removeMember/joinChannel/leaveChannel operations — the rollback
path of a throwing addMember included — a channel's members map contains a
client's id iff the client's channels map contains the channel's id. -/
theorem C2_two_way_coordination (now : String) (sys : Sys) (ops : List Op)
    (hwf : sys.wf) (hco : sys.coordinated)
    (hops : ∀ op ∈ ops, op.isMembershipOp = true) :
    (Sys.run now sys ops).sys.coordinated :=
  (Sys.run_sys_preserves now (fun s => s.wf ∧ s.coordinated)
    (fun op => op.isMembershipOp = true)
    (fun s op hq hp => Sys.step_wf_coordinated now s op hq hp.1 hp.2)
    ops sys hops ⟨hwf, hco⟩).2

def chGame : ChannelState := ⟨"game", "Game", 2, []⟩

def clGa : Client := ⟨"a", "A", .CONNECTING, [], [], false, none⟩

def clGb : Client := ⟨"b", "B", .CONNECTING, [], [], true, none⟩

def clGc : Client := ⟨"c", "C", .CONNECTING, [], [], false, some "socket closed"⟩

def sysGame : Sys := ⟨[("game", chGame)], [("a", clGa), ("b", clGb), ("c", clGc)]⟩

theorem C2_two_way_coordination_witness :
    (Sys.run "T" sysGame
      [Op.addMember "game" "a" ⟨true, false⟩, Op.joinChannel "game" "b" true,
       Op.addMember "game" "c" ⟨true, true⟩, Op.addMember "game" "a" ⟨false, false⟩,
       Op.removeMember "game" "a" ⟨true⟩, Op.leaveChannel "game" "c" true]).sys.coordinated :=
  C2_two_way_coordination "T" sysGame _ (by unfold Sys.wf; decide)
    (by unfold Sys.coordinated; decide) (by decide)

def chC3 : ChannelState := ⟨"room", "Room", 5, []⟩

def clC3 : Client := ⟨"u1", "A", .CONNECTING, [], [], true, none⟩

/-- C3 counterexample: when the post-insertion subscribe step fails,
`addMember` does NOT return the structured result
`\x7bok:false, reason:"error", error\x7d` — it re-throws.  At this concrete
input the call evaluates to a thrown error (`Except.error`), so no
`.ok`-result of any kind reaches the caller. -/
theorem C3_counterexample :
    ChannelState.addMember "T" chC3 clC3 {} = .error ("subscribe failed", chC3, clC3) :=
  rfl

/-- C3 amended: if a post-insertion step of addMember fails, the channel
rolls back completely — for a client that was not a member, not subscribed
and not tracking the channel, the channel and client objects after the call
are exactly the ones from before — but the failure is re-thrown to the
caller (`Except.error`) rather than surfaced as the structured
`\x7bok:false, reason:"error", error\x7d` result (which only the unreachable
members-map insertion catch could produce). -/
theorem C3_rollback_rethrows (now : String) (ch : ChannelState) (cl : Client)
    (opts : AddMemberOptions) (h1 : cl.subscribeFails = true) (h2 : cl.id ∉ ch.members)
    (h3 : ch.members.length < ch.limit) (h4 : ch.id ∉ cl.subs) (h5 : ch.id ∉ cl.channels) :
    ChannelState.addMember now ch cl opts = .error ("subscribe failed", ch, cl) := by
  unfold ChannelState.addMember
  rw [if_neg h2]
  have hb : (!decide (ch.members.length < ch.limit)) = false := by simp [h3]
  rw [hb]
  simp only [Bool.false_eq_true, if_false]
  rw [if_pos h1]
  unfold Client.unsubscribe Client.untrackChannel
  dsimp only
  have hm : (ch.members ++ [cl.id]).filter (· ≠ cl.id) = ch.members := by
    rw [List.filter_append]
    have e1 : ch.members.filter (· ≠ cl.id) = ch.members := by
      apply List.filter_eq_self.mpr
      intro a ha
      simp only [ne_eq, decide_eq_true_eq]
      intro he
      exact h2 (he ▸ ha)
    have e2 : ([cl.id] : List String).filter (· ≠ cl.id) = [] := by simp
    rw [e1, e2, List.append_nil]
  have hsu : cl.subs.filter (· ≠ ch.id) = cl.subs := by
    apply List.filter_eq_self.mpr
    intro a ha
    simp only [ne_eq, decide_eq_true_eq]
    intro he
    exact h4 (he ▸ ha)
  have hch : cl.channels.filter (· ≠ ch.id) = cl.channels := by
    apply List.filter_eq_self.mpr
    intro a ha
    simp only [ne_eq, decide_eq_true_eq]
    intro he
    exact h5 (he ▸ ha)
  rw [hm, hsu, hch]

theorem C3_rollback_rethrows_witness :
    ChannelState.addMember "T" chC3 clC3 ⟨true, true⟩ = .error ("subscribe failed", chC3, clC3) :=
  C3_rollback_rethrows "T" chC3 clC3 ⟨true, true⟩ (by decide) (by decide) (by decide)
    (by decide) (by decide)

/-- C4: for a client whose state is not CONNECTED and not DISCONNECTING (in
particular DISCONNECTED or CONNECTING), `send` is a no-op apart from one
logged warning: no transport write happens and the client — state and
channels included — is returned unchanged. -/
theorem C4_send_gate (now : String) (c : Client) (m : JValue)
    (o : Option WebsocketMessageOptions)
    (h : c.state ≠ .CONNECTED ∧ c.state ≠ .DISCONNECTING) :
    Client.send now c m o = ⟨c, [], 1⟩ := by
  apply Client.send_gate
  unfold Client.canReceiveMessages
  rcases h with ⟨h1, h2⟩
  cases hs : c.state <;> simp_all

def clD4 : Client := ⟨"u1", "A", .DISCONNECTED, ["c1"], ["c1"], false, none⟩

theorem C4_send_gate_witness :
    (clD4.state ≠ E_ClientState.CONNECTED ∧ clD4.state ≠ E_ClientState.DISCONNECTING) ∧
    Client.send "T" clD4 (.str "hi") none = ⟨clD4, [], 1⟩ :=
  ⟨by decide, C4_send_gate "T" clD4 (.str "hi") none (by decide)⟩

/-- C5: channel broadcast delivery.  With a non-empty `excludeClients`: no
`PublishTopic` happens, every write carries the one serialized envelope, and
each member receives exactly one write iff it is not excluded and its
transport works — excluded members get zero writes and one member's send
error does not rob later members of theirs (the count is per-member,
independent of other members' failures).  With `excludeClients` absent or
empty: exactly one `PublishTopic(channel.id, bytes)` and no per-member
write. -/
theorem C5_broadcast_paths (now : String) (ch : Channel) (m : JValue)
    (o : WebsocketMessageOptions) (hnd : (ch.members.map Prod.fst).Nodup) :
    (∀ ex, o.excludeClients = some ex → ex ≠ [] →
      (Channel.broadcast now ch m (some o)).published = none ∧
      (∃ s, ∀ w ∈ (Channel.broadcast now ch m (some o)).writes, w.2 = s) ∧
      (∀ p ∈ ch.members,
        (Channel.broadcast now ch m (some o)).writes.countP (fun w => w.1 == p.1) =
          if p.1 ∉ ex ∧ p.2.sendError = none then 1 else 0))
    ∧ ((o.excludeClients = none ∨ o.excludeClients = some []) →
      (Channel.broadcast now ch m (some o)).writes = [] ∧
      (Channel.broadcast now ch m (some o)).warnings = 0 ∧
      ∃ s, (Channel.broadcast now ch m (some o)).published = some (ch.id, s)) := by
  constructor
  · intro ex hex hne
    obtain ⟨s, hb⟩ := broadcast_exclude_spec now ch m o ex hex hne
    refine ⟨by rw [hb], ⟨s, ?_⟩,
      fun p hp => broadcast_writes_count now ch m o ex hnd hex hne hp⟩
    intro w hw
    rw [hb] at hw
    rcases List.mem_filterMap.mp hw with ⟨a, _, hfa⟩
    split at hfa
    · cases hfa; rfl
    · cases hfa
  · intro hex
    have hex' : ((some o).bind (·.excludeClients)) = none ∨
        ((some o).bind (·.excludeClients)) = some [] := by
      rcases hex with h | h
      · left
        show o.excludeClients = none
        exact h
      · right
        show o.excludeClients = some []
        exact h
    obtain ⟨s, hb⟩ := broadcast_publish_spec now ch m (some o) hex'
    rw [hb]
    exact ⟨rfl, rfl, ⟨s, rfl⟩⟩

def clB1 : Client := ⟨"u1", "A", .CONNECTED, ["c1"], ["c1"], false, none⟩

def clB2 : Client := ⟨"u2", "B", .CONNECTED, ["c1"], ["c1"], false, none⟩

def clB3 : Client := ⟨"u3", "C", .CONNECTED, ["c1"], ["c1"], false, some "socket closed"⟩

def chB : Channel := ⟨"c1", "C", 5, [("u1", clB1), ("u2", clB2), ("u3", clB3)], []⟩

def oExcl : WebsocketMessageOptions := { excludeClients := some ["u2"] }

def oPlain : WebsocketMessageOptions := { priority := some 1 }

theorem C5_broadcast_paths_witness :
    ((Channel.broadcast "T" chB payloadX (some oExcl)).published = none ∧
      (∃ s, ∀ w ∈ (Channel.broadcast "T" chB payloadX (some oExcl)).writes, w.2 = s) ∧
      (∀ p ∈ chB.members,
        (Channel.broadcast "T" chB payloadX (some oExcl)).writes.countP
            (fun w => w.1 == p.1) =
          if p.1 ∉ ["u2"] ∧ p.2.sendError = none then 1 else 0))
    ∧ ((Channel.broadcast "T" chB payloadX (some oPlain)).writes = [] ∧
      (Channel.broadcast "T" chB payloadX (some oPlain)).warnings = 0 ∧
      ∃ s, (Channel.broadcast "T" chB payloadX (some oPlain)).published =
        some (chB.id, s)) := by
  constructor
  · exact (C5_broadcast_paths "T" chB payloadX oExcl (by decide)).1 ["u2"] rfl (by decide)
  · exact (C5_broadcast_paths "T" chB payloadX oPlain (by decide)).2 (Or.inl rfl)

def bannedOptionKeys : List String :=
  ["excludeClients", "transform", "includeTimestamp", "includeMetadata", "data",
   "customFields"]

/-- C6 counterexample: `customFields` is `Object.assign`ed into the envelope
root, so an option value whose `customFields` holds one of the supposedly
banned keys puts that key into the wire envelope: here `excludeClients`
appears among the envelope's top-level keys. -/
theorem C6_counterexample :
    "excludeClients" ∈ topKeys (Message.Create "T"
      [("type", .str "x"), ("content", .obj [])]
      (some { customFields := some [("excludeClients", .bool true)] })) ∧
    "excludeClients" ∈ bannedOptionKeys := by
  constructor
  · decide
  · decide

/-- C6 amended: provided `transform` is absent and `customFields` contains
none of the option keys, the envelope built by `Message.Create` (for any
payload, options present or not) contains none of the keys
`excludeClients`, `transform`, `includeTimestamp`, `includeMetadata`,
`data`, `customFields`: `Create` itself never copies an option key into the
envelope. -/
theorem C6_no_option_keys (now : String) (message : JObj)
    (o? : Option WebsocketMessageOptions)
    (htr : ∀ o, o? = some o → o.transform = none)
    (hcf : ∀ o fs, o? = some o → o.customFields = some fs →
      ∀ k ∈ bannedOptionKeys, k ∉ fs.map Prod.fst) :
    ∀ k ∈ bannedOptionKeys, k ∉ topKeys (Message.Create now message o?) := by
  intro k hk hmem
  rcases o? with _ | o
  · simp only [Message.Create, topKeys] at hmem
    rw [mem_keys_setKey] at hmem
    rcases hmem with hmem | rfl
    · rcases mem_keys_createBase hmem with rfl | rfl | rfl | rfl <;>
        simp [bannedOptionKeys] at hk
    · simp [bannedOptionKeys] at hk
  · rcases create_topKeys now message o (htr o rfl) hmem with h | ⟨fs, hfs, hkf⟩
    · simp only [bannedOptionKeys, List.mem_cons, List.mem_singleton] at hk
      rcases hk with rfl | rfl | rfl | rfl | rfl | rfl | hk
      · simp at h
      · simp at h
      · simp at h
      · simp at h
      · simp at h
      · simp at h
      · simp at hk
    · exact hcf o fs rfl hfs k hk hkf

theorem C6_no_option_keys_witness :
    "data" ∉ topKeys (Message.Create "T" [("type", .str "x"), ("content", .obj [])]
      (some { priority := some 1, customFields := some [("extra", .num 5)] })) :=
  C6_no_option_keys "T" [("type", .str "x"), ("content", .obj [])]
    (some { priority := some 1, customFields := some [("extra", .num 5)] })
    (by intro o ho; cases ho; rfl)
    (by intro o fs ho hfs; cases ho; cases hfs; decide)
    "data" (by decide)

def chC7 : Channel := ⟨"c1", "C", 5, [("u1", clB1)], []⟩

/-- C7: hub-level `Websocket.Broadcast` does throw when no server is bound,
but it does NOT publish the serialized envelope directly: it publishes
`JSON.stringify(\x7bmessage, args\x7d)` — the payload wrapped in an extra
object and not even passed through `Message.Create` — whereas
`Channel.broadcast` publishes the bare envelope. At the same payload the two
wire frames differ. -/
theorem C7_hub_broadcast_shape :
    Websocket.Broadcast false "c1" payloadX [] = .error "Websocket server not set"
    ∧ Websocket.Broadcast true "c1" payloadX [] =
        .ok ("c1",
          "\x7b\"message\":\x7b\"type\":\"x\",\"content\":\x7b\"n\":1\x7d\x7d,\"args\":[]\x7d")
    ∧ (Channel.broadcast "T" chC7 payloadX none).published =
        some ("c1",
          "\x7b\"type\":\"x\",\"content\":\x7b\"n\":1\x7d,\"channel\":\"c1\",\"timestamp\":\"T\"\x7d")
    ∧ ("\x7b\"message\":\x7b\"type\":\"x\",\"content\":\x7b\"n\":1\x7d\x7d,\"args\":[]\x7d" : String) ≠
        "\x7b\"type\":\"x\",\"content\":\x7b\"n\":1\x7d,\"channel\":\"c1\",\"timestamp\":\"T\"\x7d" := by
  refine ⟨rfl, rfl, by decide, by decide⟩

def sysGlobal : Sys := ⟨[("global", ⟨"global", "Global", 1000, []⟩)], []⟩

/-- C8: the default open handler registers the client and adds it to
"global" — afterwards `hasMember` holds and the client's channels map
contains "global" — but the outbound `client.connected` welcome envelope is
never written: the freshly constructed client is still CONNECTING, so the
state-gated `send` drops the welcome with a warning, and the handler
performs zero transport writes. -/
theorem C8_welcome_dropped :
    (Sys.clientConnected "T" sysGlobal "u1" "A" false none).writes = []
    ∧ (Sys.clientConnected "T" sysGlobal "u1" "A" false none).warnings = 1
    ∧ ((Sys.clientConnected "T" sysGlobal "u1" "A" false none).sys.getChannel "global").map
        (fun g => g.hasMember "u1") = some true
    ∧ ((Sys.clientConnected "T" sysGlobal "u1" "A" false none).sys.getClient "u1").map
        Client.channels = some ["global"]
    ∧ ((Sys.clientConnected "T" sysGlobal "u1" "A" false none).sys.getClient "u1").map
        Client.state = some .CONNECTING := by
  exact ⟨rfl, rfl, rfl, rfl, rfl⟩

def clD9 : Client := ⟨"u9", "D", .DISCONNECTED, ["c1"], ["c1"], false, none⟩

def chD9 : Channel := ⟨"c1", "C", 5, [("u9", clD9)], []⟩

/-- C9 counterexample: on the `excludeClients` per-member path the bytes go
through the member's raw connection handle with no state check — here the
only member is DISCONNECTED yet receives the write. -/
theorem C9_counterexample :
    clD9.state = .DISCONNECTED ∧
    (Channel.broadcast "T" chD9 payloadX
        (some { excludeClients := some ["other"] })).writes.map Prod.fst = ["u9"] :=
  ⟨rfl, rfl⟩

/-- C9 amended: the core does not gate broadcast delivery by client state.
On the per-member path a member receives no write only when it is excluded
or its raw transport send fails (e.g. the connection is closed) — so a
DISCONNECTED member with a dead transport receives nothing — while the
state-gated `Client.send` by itself never writes to a DISCONNECTED
client. -/
theorem C9_state_not_gating (now : String) (ch : Channel) (m : JValue)
    (o : WebsocketMessageOptions) (ex : List String)
    (hnd : (ch.members.map Prod.fst).Nodup)
    (hex : o.excludeClients = some ex) (hne : ex ≠ []) :
    (∀ p ∈ ch.members, p.2.sendError ≠ none →
      (Channel.broadcast now ch m (some o)).writes.countP (fun w => w.1 == p.1) = 0)
    ∧ (∀ (c : Client) (m' : JValue) (o' : Option WebsocketMessageOptions),
        c.state = .DISCONNECTED → (Client.send now c m' o').writes = []) := by
  constructor
  · intro p hp hse
    rw [broadcast_writes_count now ch m o ex hnd hex hne hp, if_neg]
    tauto
  · intro c m' o' hst
    have hcr : c.canReceiveMessages = false := by
      unfold Client.canReceiveMessages
      rw [hst]
      rfl
    rw [Client.send_gate now c m' o' hcr]

theorem C9_state_not_gating_witness :
    ((Channel.broadcast "T" chB payloadX
        (some oExcl)).writes.countP (fun w => w.1 == "u3") = 0)
    ∧ (Client.send "T" clD4 payloadX none).writes = [] := by
  constructor
  · exact (C9_state_not_gating "T" chB payloadX oExcl ["u2"] (by decide) rfl
      (by decide)).1 ("u3", clB3) (by decide) (by decide)
  · exact (C9_state_not_gating "T" chB payloadX oExcl ["u2"] (by decide) rfl
      (by decide)).2 clD4 payloadX none (by decide)

/-- C10: the default connect handler constructs every client in state
CONNECTING, and no hub operation — lifecycle handlers or membership
operations, notifications included — ever moves a client into a receivable
state (`markConnected` is never invoked); consequently, from a state with no
receivable client, every gated send (welcome envelope, join/leave
notifications, channel-full errors) is dropped and an entire run performs
zero transport writes. -/
theorem C10_hub_clients_stay_connecting (now : String) :
    (∀ (sys : Sys) (id name : String) (sf : Bool) (se : Option String),
      sys.getChannel "global" ≠ none →
      ∀ c, (Sys.clientConnected now sys id name sf se).sys.getClient id = some c →
        c.state = .CONNECTING)
    ∧ (∀ (sys : Sys) (ops : List Op), sys.noReceivable →
      (Sys.run now sys ops).sys.noReceivable ∧ (Sys.run now sys ops).writes = []) := by
  constructor
  · intro sys id name sf se hglob c hc
    unfold Sys.clientConnected at hc
    rcases hg : sys.getChannel "global" with _ | global
    · exact absurd hg hglob
    rw [hg] at hc
    dsimp only at hc
    have hcr : (Client.mk' id name sf se).canReceiveMessages = false := rfl
    rw [Client.send_gate now (Client.mk' id name sf se)
      (welcomeMessage (Client.mk' id name sf se)) none hcr] at hc
    dsimp only at hc
    cases hadd : ChannelState.addMember now global (Client.mk' id name sf se) {} with
    | ok out =>
      rw [hadd] at hc
      dsimp only at hc
      have hmem := lookupA_mem hc
      rcases Sys.mem_commit_clients' hmem with ⟨_, hne⟩ | heq
      · exact absurd rfl hne
      · have hg2 := (addMember_gated now global (Client.mk' id name sf se) {} hcr).1 out hadd
        show c.state = _
        rw [show c = out.client from heq]
        exact hg2.1
    | error p =>
      obtain ⟨e, ch2, cl2⟩ := p
      rw [hadd] at hc
      dsimp only at hc
      have hmem := lookupA_mem hc
      rcases Sys.mem_commit_clients' hmem with ⟨_, hne⟩ | heq
      · exact absurd rfl hne
      · have hg2 := (addMember_gated now global (Client.mk' id name sf se) {} hcr).2
          e ch2 cl2 hadd
        show c.state = _
        rw [show c = cl2 from heq]
        exact hg2
  · intro sys ops h
    exact Sys.run_noRecv now ops sys h

theorem C10_hub_clients_stay_connecting_witness :
    (Client.mk "u1" "A" .CONNECTING ["global"] ["global"] false none).state =
      E_ClientState.CONNECTING
    ∧ (Sys.run "T" sysGlobal
        [Op.clientConnected "u1" "A" false none,
         Op.addMember "global" "u1" ⟨true, true⟩,
         Op.clientDisconnected "u1"]).sys.noReceivable
    ∧ (Sys.run "T" sysGlobal
        [Op.clientConnected "u1" "A" false none,
         Op.addMember "global" "u1" ⟨true, true⟩,
         Op.clientDisconnected "u1"]).writes = [] := by
  refine ⟨?_, ?_, ?_⟩
  · exact (C10_hub_clients_stay_connecting "T").1 sysGlobal "u1" "A" false none
      (by decide) _ rfl
  · exact ((C10_hub_clients_stay_connecting "T").2 sysGlobal _
      (by unfold Sys.noReceivable; decide)).1
  · exact ((C10_hub_clients_stay_connecting "T").2 sysGlobal _
      (by unfold Sys.noReceivable; decide)).2
